import Mathlib

/-!
Verification of the EMS simulation (`simulation.py`).

The Python source is shallowly embedded below:

* floats are modelled as real numbers (`ℝ`);
* Python ints as `ℤ`/`ℕ`;
* the two process-global pseudo-random generators (`random` and `np.random`)
  are modelled as explicit streams `ℕ → ℝ` of raw draws together with a
  position counter, threaded through the computation exactly where the
  Python code consumes the ambient global generator state.  A call
  `np.random.exponential(scale)` is modelled as `scale * stream pos`
  (the raw stream value standing for a standard exponential draw), and
  `np.random.uniform(lo, hi)` as `lo + (hi - lo) * stream pos`
  (the raw value standing for a standard uniform draw); both advance the
  position by one per drawn value, mirroring how the generator state
  advances in the source.
* `list.pop(0)`, `bisect.insort(..., key=time)` (right insertion point),
  Python list indexing (including the wrap-around of negative indices)
  and `np.argmin` (first index of the minimum) are modelled by the list
  helpers defined below.
-/

noncomputable section

/-! ### Core helpers: geometry (`distance_km`) and travel time -/

/-- `math.atan2 y x` (four-quadrant arctangent), as specified for C's
`atan2`, which Python's `math.atan2` follows; `atan2 0 0 = 0`. -/
def atan2 (y x : ℝ) : ℝ :=
  if 0 < x then Real.arctan (y / x)
  else if x < 0 then
    (if 0 ≤ y then Real.arctan (y / x) + Real.pi else Real.arctan (y / x) - Real.pi)
  else
    (if 0 < y then Real.pi / 2 else if y < 0 then -(Real.pi / 2) else 0)

/-- `distance_km`: haversine great-circle distance (km) on a sphere of
radius 6371 km, as in the source. -/
def distance_km (lat1 lon1 lat2 lon2 : ℝ) : ℝ :=
  let lat1r := lat1 * (Real.pi / 180)
  let lon1r := lon1 * (Real.pi / 180)
  let lat2r := lat2 * (Real.pi / 180)
  let lon2r := lon2 * (Real.pi / 180)
  let r : ℝ := 6371.0
  let dlon := lon2r - lon1r
  let dlat := lat2r - lat1r
  let a := Real.sin (dlat / 2) ^ 2 +
    Real.cos lat1r * Real.cos lat2r * Real.sin (dlon / 2) ^ 2
  let c := 2 * atan2 (Real.sqrt a) (Real.sqrt (1 - a))
  r * c

/-- `get_travel_time_minutes`: the empirical travel-time model of the
source, with the default coefficients `b0 = 0.336`, `b1 = 0.000058`,
`b2 = 0.0388` (the source never overrides the defaults). -/
def get_travel_time_minutes (d_km : ℝ) : ℝ :=
  let b0 : ℝ := 0.336
  let b1 : ℝ := 0.000058
  let b2 : ℝ := 0.0388
  if d_km ≤ 0.1 then 0.0
  else
    let md := if d_km ≤ 4.13 then 2.42 * Real.sqrt d_km else 2.46 + 0.596 * d_km
    let cd := Real.sqrt (b0 * (b2 + 1) + b1 * (b2 + 1) * md + b2 * md ^ 2) / md
    md * Real.exp cd

/-- The base-distance transform of the travel-time model (the value the
source binds to `md`). -/
def travelBase (d_km : ℝ) : ℝ :=
  if d_km ≤ 4.13 then 2.42 * Real.sqrt d_km else 2.46 + 0.596 * d_km

/-- The full travel-time expression as a function of the base distance
(the source's `md * exp(cd)` with the default coefficients). -/
def travelOfBase (m : ℝ) : ℝ :=
  m * Real.exp (Real.sqrt (0.336 * (0.0388 + 1) + 0.000058 * (0.0388 + 1) * m + 0.0388 * m ^ 2) / m)

lemma get_travel_time_minutes_of_le (d : ℝ) (h : d ≤ 0.1) :
    get_travel_time_minutes d = 0 := by
  simp only [get_travel_time_minutes]
  rw [if_pos h]
  norm_num

lemma get_travel_time_minutes_of_gt (d : ℝ) (h : ¬ d ≤ 0.1) :
    get_travel_time_minutes d = travelOfBase (travelBase d) := by
  simp only [get_travel_time_minutes, travelOfBase, travelBase, h, if_false]

lemma travelBase_lb (d : ℝ) (h : 0.1 < d) : 0.6 ≤ travelBase d := by
  unfold travelBase
  split
  · have hd : (0:ℝ) ≤ d := by linarith
    have hs := Real.sq_sqrt hd
    have hsn := Real.sqrt_nonneg d
    nlinarith [hs, hsn]
  · linarith

lemma travelBase_mono (d₁ d₂ : ℝ) (_h₁ : 0.1 < d₁) (h₁₂ : d₁ ≤ d₂) :
    travelBase d₁ ≤ travelBase d₂ := by
  unfold travelBase
  split
  · split
    · have := Real.sqrt_le_sqrt h₁₂
      nlinarith [this]
    · -- d₁ ≤ 4.13 < d₂ : cross the regime switch
      rename_i h413a h413b
      have hstep : 2.42 * Real.sqrt d₁ ≤ 2.42 * Real.sqrt 4.13 := by
        have := Real.sqrt_le_sqrt h413a
        nlinarith [this]
      have hmid : 2.42 * Real.sqrt 4.13 ≤ 2.46 + 0.596 * 4.13 := by
        have hs := Real.sq_sqrt (show (0:ℝ) ≤ 4.13 by norm_num)
        have hsn := Real.sqrt_nonneg (4.13 : ℝ)
        nlinarith [sq_nonneg (Real.sqrt 4.13 - 2.033), hs, hsn]
      have hd₂ : (4.13:ℝ) < d₂ := by push_neg at h413b; exact h413b
      linarith
  · rename_i h413a
    have hd₂ : ¬ d₂ ≤ 4.13 := by push_neg at h413a ⊢; linarith
    simp only [hd₂, if_false]
    linarith

lemma le_of_sq_le_sq_nonneg (a b : ℝ) (ha : 0 ≤ a) (hb : 0 ≤ b) (h : a ^ 2 ≤ b ^ 2) :
    a ≤ b :=
  calc a = Real.sqrt (a ^ 2) := (Real.sqrt_sq ha).symm
    _ ≤ Real.sqrt (b ^ 2) := Real.sqrt_le_sqrt h
    _ = b := Real.sqrt_sq hb

lemma travelOfBase_mono_aux (A B C m₁ m₂ : ℝ)
    (hApos : 0 < A) (hBpos : 0 < B) (hCpos : 0 < C)
    (hm₁ : 0 < m₁) (h₁₂ : m₁ ≤ m₂)
    (hkey0 : A + B * m₁ ≤ m₁ ^ 2) (hkeyA : A ≤ m₁ ^ 2) :
    m₁ * Real.exp (Real.sqrt (A + B * m₁ + C * m₁ ^ 2) / m₁) ≤
      m₂ * Real.exp (Real.sqrt (A + B * m₂ + C * m₂ ^ 2) / m₂) := by
  have hm₂ : (0:ℝ) < m₂ := lt_of_lt_of_le hm₁ h₁₂
  have hR₁ : (0:ℝ) ≤ A + B * m₁ + C * m₁ ^ 2 := by positivity
  have hR₂ : (0:ℝ) ≤ A + B * m₂ + C * m₂ ^ 2 := by positivity
  obtain ⟨s₁, hs₁⟩ : ∃ s, Real.sqrt (A + B * m₁ + C * m₁ ^ 2) = s := ⟨_, rfl⟩
  obtain ⟨s₂, hs₂⟩ : ∃ s, Real.sqrt (A + B * m₂ + C * m₂ ^ 2) = s := ⟨_, rfl⟩
  rw [hs₁, hs₂]
  have hs₁sq : s₁ ^ 2 = A + B * m₁ + C * m₁ ^ 2 := by
    rw [← hs₁]; exact Real.sq_sqrt hR₁
  have hs₂sq : s₂ ^ 2 = A + B * m₂ + C * m₂ ^ 2 := by
    rw [← hs₂]; exact Real.sq_sqrt hR₂
  have hs₁n : (0:ℝ) ≤ s₁ := by rw [← hs₁]; exact Real.sqrt_nonneg _
  have hs₂n : (0:ℝ) ≤ s₂ := by rw [← hs₂]; exact Real.sqrt_nonneg _
  have hs₁pos : (0:ℝ) < s₁ := by
    rw [← hs₁]; exact Real.sqrt_pos.mpr (by nlinarith)
  have hs₂pos : (0:ℝ) < s₂ := by
    rw [← hs₂]; exact Real.sqrt_pos.mpr (by nlinarith)
  -- Key 1 :  A + B m₁ ≤ m₁ s₁
  have hP : (0:ℝ) ≤ A + B * m₁ := by positivity
  have hkey1 : A + B * m₁ ≤ m₁ * s₁ := by
    apply le_of_sq_le_sq_nonneg _ _ hP (mul_nonneg hm₁.le hs₁n)
    have h2 : (m₁ * s₁) ^ 2 = m₁ ^ 2 * (A + B * m₁ + C * m₁ ^ 2) := by
      rw [mul_pow, hs₁sq]
    rw [h2]
    have h1 : (A + B * m₁) * (A + B * m₁) ≤ (A + B * m₁) * m₁ ^ 2 :=
      mul_le_mul_of_nonneg_left hkey0 hP
    nlinarith [h1, mul_nonneg (sq_nonneg m₁) (mul_nonneg hCpos.le (sq_nonneg m₁))]
  -- Key 2 :  A ≤ m₁ s₂
  have hkey2 : A ≤ m₁ * s₂ := by
    apply le_of_sq_le_sq_nonneg _ _ hApos.le (mul_nonneg hm₁.le hs₂n)
    have h2 : (m₁ * s₂) ^ 2 = m₁ ^ 2 * (A + B * m₂ + C * m₂ ^ 2) := by
      rw [mul_pow, hs₂sq]
    rw [h2]
    have h1 : A * A ≤ A * m₁ ^ 2 := mul_le_mul_of_nonneg_left hkeyA hApos.le
    nlinarith [h1, mul_nonneg (sq_nonneg m₁) (mul_nonneg hBpos.le hm₂.le),
      mul_nonneg (sq_nonneg m₁) (mul_nonneg hCpos.le (sq_nonneg m₂))]
  -- Key 3 :  s₁ m₂ - s₂ m₁ ≤ m₁ m₂ - m₁²
  have hS : (0:ℝ) < s₁ * m₂ + s₂ * m₁ := by positivity
  have hprod : (s₁ * m₂ - s₂ * m₁) * (s₁ * m₂ + s₂ * m₁) =
      (m₂ - m₁) * (A * (m₁ + m₂) + B * (m₁ * m₂)) := by
    linear_combination m₂ ^ 2 * hs₁sq - m₁ ^ 2 * hs₂sq
  have hsum : A * (m₁ + m₂) + B * (m₁ * m₂) ≤ m₁ * (s₁ * m₂ + s₂ * m₁) := by
    have e1 : (A + B * m₁) * m₂ ≤ (m₁ * s₁) * m₂ :=
      mul_le_mul_of_nonneg_right hkey1 hm₂.le
    have e2 : A * m₁ ≤ (m₁ * s₂) * m₁ :=
      mul_le_mul_of_nonneg_right hkey2 hm₁.le
    nlinarith [e1, e2]
  have hkey3 : s₁ * m₂ - s₂ * m₁ ≤ m₁ * m₂ - m₁ ^ 2 := by
    have hb : (s₁ * m₂ - s₂ * m₁) * (s₁ * m₂ + s₂ * m₁) ≤
        (m₁ * m₂ - m₁ ^ 2) * (s₁ * m₂ + s₂ * m₁) := by
      rw [hprod]
      have hmm : (0:ℝ) ≤ m₂ - m₁ := by linarith
      calc (m₂ - m₁) * (A * (m₁ + m₂) + B * (m₁ * m₂))
          ≤ (m₂ - m₁) * (m₁ * (s₁ * m₂ + s₂ * m₁)) :=
            mul_le_mul_of_nonneg_left hsum hmm
        _ = (m₁ * m₂ - m₁ ^ 2) * (s₁ * m₂ + s₂ * m₁) := by ring
    exact le_of_mul_le_mul_right hb hS
  -- δ := s₁/m₁ - s₂/m₂ ≤ 1 - m₁/m₂
  have hdelta : s₁ / m₁ - s₂ / m₂ ≤ 1 - m₁ / m₂ := by
    rw [div_sub_div _ _ (ne_of_gt hm₁) (ne_of_gt hm₂), div_le_iff₀ (by positivity)]
    have hswap : (1 - m₁ / m₂) * (m₁ * m₂) = m₁ * m₂ - m₁ ^ 2 := by
      have hm₂' : m₂ ≠ 0 := ne_of_gt hm₂
      field_simp
      ring
    linarith [hkey3, hswap]
  -- exp(δ) ≤ m₂ / m₁
  have hexp : Real.exp (s₁ / m₁ - s₂ / m₂) ≤ m₂ / m₁ := by
    have h1 : Real.exp (s₁ / m₁ - s₂ / m₂) ≤ Real.exp (1 - m₁ / m₂) :=
      Real.exp_le_exp.mpr hdelta
    have hw : (0:ℝ) < m₁ / m₂ := by positivity
    have h2 := Real.add_one_le_exp (m₁ / m₂ - 1)
    have h3 : m₁ / m₂ ≤ Real.exp (m₁ / m₂ - 1) := by linarith
    have h4 : Real.exp (1 - m₁ / m₂) = (Real.exp (m₁ / m₂ - 1))⁻¹ := by
      rw [← Real.exp_neg]; ring_nf
    have h5 : (Real.exp (m₁ / m₂ - 1))⁻¹ ≤ (m₁ / m₂)⁻¹ := by
      apply inv_anti₀ hw h3
    have h6 : (m₁ / m₂)⁻¹ = m₂ / m₁ := by
      rw [inv_div]
    calc Real.exp (s₁ / m₁ - s₂ / m₂) ≤ Real.exp (1 - m₁ / m₂) := h1
      _ = (Real.exp (m₁ / m₂ - 1))⁻¹ := h4
      _ ≤ (m₁ / m₂)⁻¹ := h5
      _ = m₂ / m₁ := h6
  -- assemble
  have hsplit : Real.exp (s₁ / m₁) =
      Real.exp (s₁ / m₁ - s₂ / m₂) * Real.exp (s₂ / m₂) := by
    rw [← Real.exp_add]; ring_nf
  rw [hsplit]
  have hE : (0:ℝ) < Real.exp (s₂ / m₂) := Real.exp_pos _
  have hmul : m₁ * (Real.exp (s₁ / m₁ - s₂ / m₂) * Real.exp (s₂ / m₂)) ≤
      m₁ * ((m₂ / m₁) * Real.exp (s₂ / m₂)) := by
    apply mul_le_mul_of_nonneg_left _ hm₁.le
    exact mul_le_mul_of_nonneg_right hexp hE.le
  calc m₁ * (Real.exp (s₁ / m₁ - s₂ / m₂) * Real.exp (s₂ / m₂))
      ≤ m₁ * ((m₂ / m₁) * Real.exp (s₂ / m₂)) := hmul
    _ = m₂ * Real.exp (s₂ / m₂) := by field_simp

lemma travelOfBase_mono (m₁ m₂ : ℝ) (h₁ : 0.6 ≤ m₁) (h₁₂ : m₁ ≤ m₂) :
    travelOfBase m₁ ≤ travelOfBase m₂ := by
  unfold travelOfBase
  exact travelOfBase_mono_aux (0.336 * (0.0388 + 1)) (0.000058 * (0.0388 + 1)) 0.0388
    m₁ m₂ (by norm_num) (by norm_num) (by norm_num) (by linarith) h₁₂
    (by nlinarith [sq_nonneg (m₁ - 0.6)]) (by nlinarith [sq_nonneg (m₁ - 0.6)])

lemma get_travel_time_nonneg (d : ℝ) : 0 ≤ get_travel_time_minutes d := by
  by_cases h : d ≤ 0.1
  · rw [get_travel_time_minutes_of_le d h]
  · rw [get_travel_time_minutes_of_gt d h]
    unfold travelOfBase
    have hb : 0.6 ≤ travelBase d := travelBase_lb d (by push_neg at h; exact h)
    have := Real.exp_pos (Real.sqrt (0.336 * (0.0388 + 1) +
      0.000058 * (0.0388 + 1) * travelBase d + 0.0388 * travelBase d ^ 2) / travelBase d)
    nlinarith [this, hb]

/-- Claim C8: the travel-time function returns exactly 0 minutes for every
distance at most 0.1 km, and is monotonically non-decreasing in distance
for every pair of distances greater than 0.1 km (including across the
regime switch at 4.13 km). -/
theorem travel_time_zero_and_monotone :
    (∀ d : ℝ, d ≤ 0.1 → get_travel_time_minutes d = 0) ∧
    (∀ d₁ d₂ : ℝ, 0.1 < d₁ → d₁ ≤ d₂ →
      get_travel_time_minutes d₁ ≤ get_travel_time_minutes d₂) := by
  constructor
  · exact fun d h => get_travel_time_minutes_of_le d h
  · intro d₁ d₂ h₁ h₁₂
    have h₂ : 0.1 < d₂ := lt_of_lt_of_le h₁ h₁₂
    rw [get_travel_time_minutes_of_gt d₁ (by push_neg; exact h₁),
        get_travel_time_minutes_of_gt d₂ (by push_neg; exact h₂)]
    exact travelOfBase_mono _ _ (travelBase_lb d₁ h₁) (travelBase_mono d₁ d₂ h₁ h₁₂)

/-! ### List helpers modelling `np.argmin`, `min`, `np.mean`, `np.median`,
`bisect.insort` and Python list indexing -/

/-- `np.argmin`: the index of the first occurrence of the minimum of the
list (`np.argmin` scans left to right and only replaces the current best
on a strictly smaller value, hence first occurrence wins ties). -/
def argminIdx : List ℝ → ℕ
  | [] => 0
  | [_] => 0
  | x :: y :: ys =>
    if x ≤ (y :: ys).getD (argminIdx (y :: ys)) 0 then 0
    else argminIdx (y :: ys) + 1

lemma argminIdx_spec (l : List ℝ) (hne : l ≠ []) :
    argminIdx l < l.length ∧
    (∀ j, j < l.length → l.getD (argminIdx l) 0 ≤ l.getD j 0) ∧
    (∀ j, j < argminIdx l → l.getD (argminIdx l) 0 < l.getD j 0) := by
  revert hne
  induction l with
  | nil => intro h; exact absurd rfl h
  | cons x t ih =>
    intro _
    cases t with
    | nil =>
      refine ⟨by simp [argminIdx], ?_, ?_⟩
      · intro j hj
        have hj0 : j = 0 := by simpa using hj
        subst hj0
        exact le_refl _
      · intro j hj
        simp [argminIdx] at hj
    | cons y ys =>
      obtain ⟨ih1, ih2, ih3⟩ := ih (by simp)
      by_cases hx : x ≤ (y :: ys).getD (argminIdx (y :: ys)) 0
      · have hval : argminIdx (x :: y :: ys) = 0 := by
          simp only [argminIdx]
          rw [if_pos hx]
        refine ⟨by rw [hval]; simp, ?_, ?_⟩
        · intro j hj
          rw [hval]
          cases j with
          | zero => exact le_refl _
          | succ k =>
            rw [List.getD_cons_zero, List.getD_cons_succ]
            exact le_trans hx (ih2 k (by simpa using hj))
        · intro j hj
          rw [hval] at hj
          omega
      · have hlt : (y :: ys).getD (argminIdx (y :: ys)) 0 < x := lt_of_not_le hx
        have hval : argminIdx (x :: y :: ys) = argminIdx (y :: ys) + 1 := by
          simp only [argminIdx]
          rw [if_neg hx]
        refine ⟨?_, ?_, ?_⟩
        · rw [hval]
          simpa using ih1
        · intro j hj
          rw [hval, List.getD_cons_succ]
          cases j with
          | zero =>
            rw [List.getD_cons_zero]
            exact hlt.le
          | succ k =>
            rw [List.getD_cons_succ]
            exact ih2 k (by simpa using hj)
        · intro j hj
          rw [hval] at hj
          rw [hval, List.getD_cons_succ]
          cases j with
          | zero =>
            rw [List.getD_cons_zero]
            exact hlt
          | succ k =>
            rw [List.getD_cons_succ]
            exact ih3 k (by omega)

/-- Python's `min` over a list of floats (`0` on the empty list, which the
source never evaluates: `min` on an empty Python list raises). -/
def listMin : List ℝ → ℝ
  | [] => 0
  | x :: xs => xs.foldl min x

lemma foldl_min_le_init (xs : List ℝ) : ∀ a : ℝ, xs.foldl min a ≤ a := by
  induction xs with
  | nil => simp
  | cons x t ih =>
    intro a
    simpa using le_trans (ih (min a x)) (min_le_left a x)

lemma foldl_min_le_mem (xs : List ℝ) :
    ∀ (a x : ℝ), x ∈ xs → xs.foldl min a ≤ x := by
  induction xs with
  | nil => simp
  | cons z t ih =>
    intro a x hx
    rcases List.mem_cons.mp hx with h | h
    · subst h
      simpa using le_trans (foldl_min_le_init t (min a x)) (min_le_right a x)
    · simpa using ih (min a z) x h

lemma foldl_min_mem (xs : List ℝ) :
    ∀ a : ℝ, xs.foldl min a = a ∨ xs.foldl min a ∈ xs := by
  induction xs with
  | nil => simp
  | cons z t ih =>
    intro a
    rcases ih (min a z) with h | h
    · by_cases hz : a ≤ z
      · left
        rw [List.foldl_cons, h, min_eq_left hz]
      · right
        rw [List.foldl_cons, h, min_eq_right (le_of_not_le hz)]
        exact List.mem_cons_self z t
    · right
      rw [List.foldl_cons]
      exact List.mem_cons_of_mem z h

lemma listMin_le (l : List ℝ) (x : ℝ) (hx : x ∈ l) : listMin l ≤ x := by
  cases l with
  | nil => simp at hx
  | cons z t =>
    rcases List.mem_cons.mp hx with h | h
    · subst h; exact foldl_min_le_init t x
    · exact foldl_min_le_mem t z x h

lemma listMin_mem (l : List ℝ) (h : l ≠ []) : listMin l ∈ l := by
  cases l with
  | nil => simp at h
  | cons z t =>
    rcases foldl_min_mem t z with h' | h'
    · simp [listMin, h']
    · simp [listMin]
      right
      exact h'

lemma getD_mem {α : Type} (l : List α) (n : ℕ) (d : α) (h : n < l.length) :
    l.getD n d ∈ l := by
  rw [List.getD_eq_getElem l d h]
  exact List.getElem_mem h

lemma listMin_eq_getD_argminIdx (l : List ℝ) (h : l ≠ []) :
    listMin l = l.getD (argminIdx l) 0 := by
  obtain ⟨h1, h2, _⟩ := argminIdx_spec l h
  apply le_antisymm
  · exact listMin_le l _ (getD_mem l _ 0 h1)
  · obtain ⟨n, hn, hval⟩ := List.getElem_of_mem (listMin_mem l h)
    rw [← hval, ← List.getD_eq_getElem l 0 hn]
    exact h2 n hn

/-- `np.mean` over a list (the source only applies it to non-empty
lists when `iterations ≥ 1`). -/
def listMean (l : List ℝ) : ℝ := l.sum / l.length

/-- `np.median`: sort ascending, take the middle element (odd length) or
the mean of the two middle elements (even length). -/
def listMedian (l : List ℝ) : ℝ :=
  let s := l.mergeSort (fun a b => a ≤ b)
  (s.getD ((l.length - 1) / 2) 0 + s.getD (l.length / 2) 0) / 2

lemma getD_set_self (l : List α) (i : ℕ) (a d : α) (h : i < l.length) :
    (l.set i a).getD i d = a := by
  induction l generalizing i with
  | nil => simp at h
  | cons x t ih =>
    cases i with
    | zero => simp
    | succ k => simpa using ih k (by simpa using h)

lemma getD_set_other (l : List α) (i j : ℕ) (a d : α) (h : i ≠ j) :
    (l.set i a).getD j d = l.getD j d := by
  induction l generalizing i j with
  | nil => simp
  | cons x t ih =>
    cases i with
    | zero =>
      cases j with
      | zero => exact absurd rfl h
      | succ k => simp
    | succ m =>
      cases j with
      | zero => simp
      | succ k => simpa using ih m k (by omega)

/-! ### Data model: events, ambulances, stations, hospitals -/

/-- A pending event: the source stores loosely-typed dicts with a
`"type"` field of `"call"` or `"free"`; `"call"` events carry
`time/treat/lat/lon/hos` and `"free"` events carry `time/amb_id`.
`hos` is a float in the source (`float(hospital_req[i])`). -/
inductive Event where
  | call (time treat lat lon hos : ℝ)
  | free (time : ℝ) (amb_id : ℕ)

/-- The sort key used by `bisect.insort(events, ..., key=lambda x: x["time"])`. -/
def Event.time : Event → ℝ
  | .call t _ _ _ _ => t
  | .free t _ => t

def isCallE : Event → Bool
  | .call _ _ _ _ _ => true
  | .free _ _ => false

/-- Whether an event is a Free event for ambulance `i`. -/
def isFreeFor (i : ℕ) : Event → Bool
  | .free _ a => a = i
  | .call _ _ _ _ _ => false

/-- `bisect.insort` with `key=time`: insert `e` after every element whose
key is `≤ e`'s key (right insertion point), keeping the list sorted. -/
def insortR (e : Event) : List Event → List Event
  | [] => [e]
  | x :: xs => if x.time ≤ e.time then x :: insortR e xs else e :: x :: xs

lemma length_insortR (e : Event) (l : List Event) :
    (insortR e l).length = l.length + 1 := by
  induction l with
  | nil => simp [insortR]
  | cons x xs ih =>
    simp only [insortR]
    split <;> simp [ih]

lemma countP_insortR (p : Event → Bool) (e : Event) (l : List Event) :
    (insortR e l).countP p = l.countP p + (if p e then 1 else 0) := by
  induction l with
  | nil => simp [insortR, List.countP_cons]
  | cons x xs ih =>
    simp only [insortR]
    split
    · simp only [List.countP_cons, ih]
      omega
    · simp only [List.countP_cons]

lemma mem_insortR (a e : Event) (l : List Event) :
    a ∈ insortR e l ↔ a = e ∨ a ∈ l := by
  induction l with
  | nil => simp [insortR]
  | cons x xs ih =>
    simp only [insortR]
    split
    · simp only [List.mem_cons, ih]
      tauto
    · simp only [List.mem_cons]

/-- Ambulance record: `{id, availability, latitude, longitude}`
(availability: 1 = available, 0 = busy). -/
structure Amb where
  id : ℕ
  availability : ℤ
  lat : ℝ
  lon : ℝ

structure Station where
  id : ℕ
  lat : ℝ
  lon : ℝ

structure Hospital where
  id : ℕ
  lat : ℝ
  lon : ℝ

def defaultAmb : Amb := ⟨0, 0, 0, 0⟩

def defaultStation : Station := ⟨0, 0, 0⟩

/-- Python list indexing, including the wrap-around of negative indices
(`l[-k]` is `l[len(l) - k]`); out-of-range access yields the default
(the source would raise `IndexError` there). -/
def pyGetD (l : List α) (i : ℤ) (d : α) : α :=
  if 0 ≤ i then l.getD i.toNat d else l.getD (l.length - (-i).toNat) d

/-- `build_table`: `table[i] = primary_list[:i]` for `i in 0..len(primary_list)`. -/
def build_table (primary_list : List ℤ) : List (List ℤ) :=
  (List.range (primary_list.length + 1)).map fun i => primary_list.take i

/-! ### Fixed stations / hospitals (`fixed_location_generator`) -/

def station_lat : List ℝ :=
  [53.560819, 53.459373, 53.596919, 53.458361, 53.540513, 53.524711, 53.501455,
   53.616200, 53.576052, 53.496447, 53.599942, 53.548177, 53.491966, 53.493017,
   53.553621, 53.548412, 53.570662]

def station_lon : List ℝ :=
  [-113.493309, -113.591074, -113.420168, -113.393060, -113.593065, -113.456783, -113.628936,
   -113.539335, -113.459060, -113.517286, -113.465073, -113.565264, -113.494986, -113.417560,
   -113.525529, -113.500589, -113.407889]

def home_station : List ℕ := [2, 2, 3, 4, 4, 6, 7, 7, 8, 8, 9, 11, 12, 13, 13, 15]

def hospital_lat : List ℝ := [53.55696, 53.52071, 53.60444, 53.461583, 53.521115]

def hospital_lon : List ℝ := [-113.496566, -113.523769, -113.417621, -113.429724, -113.613514]

/-- Ambulance `i` starts available at `station_lat[home_station[i]]`
(the source indexes the raw coordinate arrays directly with the home
station value). -/
def mkAmbulances (n : ℕ) : List Amb :=
  (List.range n).map fun i =>
    ⟨i, 1, station_lat.getD (home_station.getD i 0) 0,
      station_lon.getD (home_station.getD i 0) 0⟩

def mkStations (n : ℕ) : List Station :=
  (List.range n).map fun i => ⟨i + 1, station_lat.getD i 0, station_lon.getD i 0⟩

def mkHospitals (n : ℕ) : List Hospital :=
  (List.range n).map fun i => ⟨i, hospital_lat.getD i 0, hospital_lon.getD i 0⟩

def fixed_location_generator (ambulance_n stations_n hospitals_n : ℕ) :
    List Amb × List Station × List Hospital :=
  (mkAmbulances ambulance_n, mkStations stations_n, mkHospitals hospitals_n)

/-- The warm-up boundary: 7 simulated days in minutes. -/
def warmup : ℝ := 7 * 24 * 60

/-! ### The event loop -/

/-- Static per-run configuration of the event loop. -/
structure SimCfg where
  th : ℤ
  table : List (List ℤ)
  stations : List Station
  hospitals : List Hospital

/-- Mutable state of one replication's event loop.  `np`/`npPos` model the
process-global NumPy generator, consumed by the in-loop
`np.random.exponential(35)` hospital hand-off draws. -/
structure SimState where
  ambulances : List Amb
  currentState : ℤ
  travelTimes : List ℝ
  lost : ℕ
  events : List Event
  np : ℕ → ℝ
  npPos : ℕ

/-- Indices of ambulances currently flagged available
(`[a for a in ambulances if a["availability"] == 1]`, by position). -/
def availIdx (ambs : List Amb) : List ℕ :=
  (List.range ambs.length).filter fun i => (ambs.getD i defaultAmb).availability = 1

/-- The dispatch pool: the available ones, degrading to the whole fleet
when none is flagged available (`if not free: free = ambulances`). -/
def freePool (ambs : List Amb) : List ℕ :=
  if availIdx ambs = [] then List.range ambs.length else availIdx ambs

/-- Haversine distances from each pool ambulance to the call site. -/
def callDists (ambs : List Amb) (lat lon : ℝ) : List ℝ :=
  (freePool ambs).map fun i =>
    distance_km (ambs.getD i defaultAmb).lat (ambs.getD i defaultAmb).lon lat lon

/-- Position (in the fleet list) of the dispatched ambulance:
`free[int(np.argmin(dists))]`. -/
def chosenPos (ambs : List Amb) (lat lon : ℝ) : ℕ :=
  (freePool ambs).getD (argminIdx (callDists ambs lat lon)) 0

/-- Filtering a candidate list to valid station ids
(`[c for c in candidates if 1 <= c <= len(stations)]`), falling back to
`[1,2,3]` if the filter empties it. -/
def repoFiltered (cand0 : List ℤ) (nStations : ℕ) : List ℤ :=
  if cand0.filter (fun c => decide (1 ≤ c ∧ c ≤ (nStations : ℤ))) = [] then [1, 2, 3]
  else cand0.filter (fun c => decide (1 ≤ c ∧ c ≤ (nStations : ℤ)))

/-- The candidate-station list consulted on a reposition trigger:
`reposition_table[min(len(table)-1, current_state)]`, replaced by
`[1,2,3]` if empty, filtered to valid station ids, replaced by `[1,2,3]`
again if the filter empties it. -/
def repoCandidates (table : List (List ℤ)) (nStations : ℕ) (cs : ℤ) : List ℤ :=
  repoFiltered
    (if pyGetD table (min ((table.length : ℤ) - 1) cs) [] = [] then [1, 2, 3]
     else pyGetD table (min ((table.length : ℤ) - 1) cs) []) nStations

/-- Distances from the just-freed ambulance to each candidate station
(`stations[cid - 1]`). -/
def repoDists (stations : List Station) (amb : Amb) (cand : List ℤ) : List ℝ :=
  cand.map fun cid =>
    distance_km amb.lat amb.lon
      (stations.getD (cid - 1).toNat defaultStation).lat
      (stations.getD (cid - 1).toNat defaultStation).lon

/-- The relocation target: `candidates[int(np.argmin(ds))]`. -/
def repoTarget (stations : List Station) (amb : Amb) (cand : List ℤ) : ℤ :=
  cand.getD (argminIdx (repoDists stations amb cand)) 0

/-- One iteration of the `while events:` loop: pop the earliest event and
resolve it (dispatch / lost call / free-and-maybe-reposition).  The Python
`else: raise ValueError` branch cannot arise: the event type is a
two-constructor inductive. -/
def step (cfg : SimCfg) (s : SimState) : SimState :=
  match s.events with
  | [] => s
  | Event.call time treat lat lon hos :: rest =>
    if s.currentState = 0 then
      { s with events := rest,
               lost := if warmup ≤ time then s.lost + 1 else s.lost }
    else
      let k := chosenPos s.ambulances lat lon
      let chosen := s.ambulances.getD k defaultAmb
      let ambs1 := s.ambulances.set k
        { chosen with availability := 0, lat := lat, lon := lon }
      let t1 := get_travel_time_minutes (listMin (callDists s.ambulances lat lon))
      let tt1 := if warmup ≤ time then s.travelTimes ++ [t1] else s.travelTimes
      if hos = 1 then
        let t2 := get_travel_time_minutes
          (listMin (cfg.hospitals.map fun h => distance_km lat lon h.lat h.lon))
        let tt2 := if warmup ≤ time then tt1 ++ [t2] else tt1
        { s with ambulances := ambs1,
                 currentState := s.currentState - 1,
                 travelTimes := tt2,
                 events := insortR
                   (Event.free (time + t1 + treat + t2 + 35 * s.np s.npPos) chosen.id) rest,
                 npPos := s.npPos + 1 }
      else
        { s with ambulances := ambs1,
                 currentState := s.currentState - 1,
                 travelTimes := tt1,
                 events := insortR (Event.free (time + t1 + treat) chosen.id) rest }
  | Event.free _ aid :: rest =>
    let amb := s.ambulances.getD aid defaultAmb
    let freed : Amb := { amb with availability := 1 }
    let ambs1 := s.ambulances.set aid freed
    let cs := s.currentState + 1
    if cs < cfg.th then
      let cand := repoCandidates cfg.table cfg.stations.length cs
      let target := repoTarget cfg.stations freed cand
      let st := cfg.stations.getD (target - 1).toNat defaultStation
      { s with ambulances := ambs1.set aid { freed with lat := st.lat, lon := st.lon },
               currentState := cs, events := rest }
    else
      { s with ambulances := ambs1, currentState := cs, events := rest }

/-- Termination measure for the event loop: a call event may spawn one
free event, a free event spawns none. -/
def stepMeasure (s : SimState) : ℕ := 2 * s.events.countP isCallE + s.events.length

lemma stepMeasure_lt (cfg : SimCfg) (s : SimState) (h : s.events ≠ []) :
    stepMeasure (step cfg s) < stepMeasure s := by
  unfold stepMeasure step
  match hev : s.events with
  | [] => exact absurd hev h
  | Event.call time treat lat lon hos :: rest =>
    simp only [List.countP_cons, isCallE]
    split
    · simp only [List.length_cons]
      omega
    · split
      · simp [countP_insortR, length_insortR, isCallE]
      · simp [countP_insortR, length_insortR, isCallE]
  | Event.free t aid :: rest =>
    simp only [List.countP_cons, isCallE]
    split
    · simp only [List.length_cons]
      omega
    · simp only [List.length_cons]
      omega

/-- Equality of events is classically decidable (needed only for the loop
guard `while events:`). -/
noncomputable instance : DecidableEq Event := Classical.decEq Event

/-- The `while events:` loop. -/
def runLoop (cfg : SimCfg) (s : SimState) : SimState :=
  if h : s.events = [] then s else runLoop cfg (step cfg s)
termination_by stepMeasure s
decreasing_by exact stepMeasure_lt cfg s h

lemma runLoop_nil (cfg : SimCfg) (s : SimState) (h : s.events = []) :
    runLoop cfg s = s := by
  rw [runLoop]
  simp [h]

lemma runLoop_cons (cfg : SimCfg) (s : SimState) (h : s.events ≠ []) :
    runLoop cfg s = runLoop cfg (step cfg s) := by
  rw [runLoop]
  simp [h]

/-! ### Basic facts about the dispatch pool and the step function -/

lemma availIdx_mem_avail (ambs : List Amb) :
    ∀ i ∈ availIdx ambs, (ambs.getD i defaultAmb).availability = 1 := by
  intro i hi
  have := (List.mem_filter.mp hi).2
  simpa using this

lemma availIdx_mem_lt (ambs : List Amb) :
    ∀ i ∈ availIdx ambs, i < ambs.length := by
  intro i hi
  exact List.mem_range.mp (List.mem_filter.mp hi).1

lemma freePool_mem_lt (ambs : List Amb) :
    ∀ i ∈ freePool ambs, i < ambs.length := by
  intro i hi
  unfold freePool at hi
  split at hi
  · exact List.mem_range.mp hi
  · exact availIdx_mem_lt ambs i hi

lemma freePool_ne_nil (ambs : List Amb) (h : ambs ≠ []) : freePool ambs ≠ [] := by
  unfold freePool
  split
  · simpa [List.range_eq_nil] using List.length_pos.mpr h |>.ne'
  · assumption

lemma callDists_length (ambs : List Amb) (lat lon : ℝ) :
    (callDists ambs lat lon).length = (freePool ambs).length := by
  simp [callDists]

lemma callDists_ne_nil (ambs : List Amb) (lat lon : ℝ) (h : ambs ≠ []) :
    callDists ambs lat lon ≠ [] := by
  intro hnil
  have := congrArg List.length hnil
  rw [callDists_length] at this
  exact freePool_ne_nil ambs h (List.length_eq_zero.mp (by simpa using this))

lemma chosenPos_mem (ambs : List Amb) (lat lon : ℝ) (h : ambs ≠ []) :
    chosenPos ambs lat lon ∈ freePool ambs := by
  unfold chosenPos
  have hd := callDists_ne_nil ambs lat lon h
  have harg := (argminIdx_spec _ hd).1
  rw [callDists_length] at harg
  exact getD_mem _ _ _ harg

lemma chosenPos_lt (ambs : List Amb) (lat lon : ℝ) (h : ambs ≠ []) :
    chosenPos ambs lat lon < ambs.length :=
  freePool_mem_lt ambs _ (chosenPos_mem ambs lat lon h)

/-! Equation lemmas for the four branches of `step`. -/

lemma step_call_lost (cfg : SimCfg) (s : SimState) (time treat lat lon hos : ℝ)
    (rest : List Event)
    (hev : s.events = Event.call time treat lat lon hos :: rest)
    (h0 : s.currentState = 0) :
    step cfg s = { s with events := rest,
                          lost := if warmup ≤ time then s.lost + 1 else s.lost } := by
  obtain ⟨a, c, t, lo, ev, f, p⟩ := s
  simp only at hev h0
  subst hev h0
  simp [step]

lemma step_call_dispatch_nohos (cfg : SimCfg) (s : SimState)
    (time treat lat lon hos : ℝ) (rest : List Event)
    (hev : s.events = Event.call time treat lat lon hos :: rest)
    (hne : s.currentState ≠ 0) (hhos : ¬ hos = 1) :
    step cfg s = { s with
      ambulances := s.ambulances.set (chosenPos s.ambulances lat lon)
        { s.ambulances.getD (chosenPos s.ambulances lat lon) defaultAmb with
          availability := 0, lat := lat, lon := lon },
      currentState := s.currentState - 1,
      travelTimes := if warmup ≤ time then
        s.travelTimes ++ [get_travel_time_minutes (listMin (callDists s.ambulances lat lon))]
        else s.travelTimes,
      events := insortR (Event.free
        (time + get_travel_time_minutes (listMin (callDists s.ambulances lat lon)) + treat)
        (s.ambulances.getD (chosenPos s.ambulances lat lon) defaultAmb).id) rest } := by
  obtain ⟨a, c, t, lo, ev, f, p⟩ := s
  simp only at hev hne hhos
  subst hev
  simp [step, hne, hhos]

lemma step_call_dispatch_hos (cfg : SimCfg) (s : SimState)
    (time treat lat lon hos : ℝ) (rest : List Event)
    (hev : s.events = Event.call time treat lat lon hos :: rest)
    (hne : s.currentState ≠ 0) (hhos : hos = 1) :
    step cfg s = { s with
                   ambulances := s.ambulances.set (chosenPos s.ambulances lat lon)
                     { s.ambulances.getD (chosenPos s.ambulances lat lon) defaultAmb with
                         availability := 0, lat := lat, lon := lon },
                   currentState := s.currentState - 1,
                   travelTimes := if warmup ≤ time then
                       (if warmup ≤ time then
                         s.travelTimes ++
                           [get_travel_time_minutes (listMin (callDists s.ambulances lat lon))]
                         else s.travelTimes) ++
                       [get_travel_time_minutes
                         (listMin (cfg.hospitals.map fun h => distance_km lat lon h.lat h.lon))]
                     else (if warmup ≤ time then
                       s.travelTimes ++
                         [get_travel_time_minutes (listMin (callDists s.ambulances lat lon))]
                       else s.travelTimes),
                   events := insortR (Event.free
                     (time + get_travel_time_minutes (listMin (callDists s.ambulances lat lon))
                       + treat
                       + get_travel_time_minutes
                         (listMin (cfg.hospitals.map fun h => distance_km lat lon h.lat h.lon))
                       + 35 * s.np s.npPos)
                     (s.ambulances.getD (chosenPos s.ambulances lat lon) defaultAmb).id) rest,
                   npPos := s.npPos + 1 } := by
  obtain ⟨a, c, t, lo, ev, f, p⟩ := s
  simp only at hev hne hhos
  subst hev hhos
  simp [step, hne]

/-- The freed record set on a Free event (`amb["availability"] = 1`). -/
def freedAmb (s : SimState) (aid : ℕ) : Amb :=
  { s.ambulances.getD aid defaultAmb with availability := 1 }

/-- The station the freed ambulance is relocated to on a reposition
trigger (`stations[target_station - 1]`). -/
def repoDest (cfg : SimCfg) (amb : Amb) (cs : ℤ) : Station :=
  cfg.stations.getD
    ((repoTarget cfg.stations amb (repoCandidates cfg.table cfg.stations.length cs) - 1).toNat)
    defaultStation

lemma step_free_norepo (cfg : SimCfg) (s : SimState) (t0 : ℝ) (aid : ℕ)
    (rest : List Event)
    (hev : s.events = Event.free t0 aid :: rest)
    (hth : ¬ (s.currentState + 1 < cfg.th)) :
    step cfg s = { s with
                   ambulances := s.ambulances.set aid (freedAmb s aid),
                   currentState := s.currentState + 1,
                   events := rest } := by
  obtain ⟨a, c, t, lo, ev, f, p⟩ := s
  simp only at hev hth
  subst hev
  simp [step, hth, freedAmb]

lemma step_free_repo (cfg : SimCfg) (s : SimState) (t0 : ℝ) (aid : ℕ)
    (rest : List Event)
    (hev : s.events = Event.free t0 aid :: rest)
    (hth : s.currentState + 1 < cfg.th) :
    step cfg s = { s with
                   ambulances := (s.ambulances.set aid (freedAmb s aid)).set aid
                     { freedAmb s aid with
                         lat := (repoDest cfg (freedAmb s aid) (s.currentState + 1)).lat,
                         lon := (repoDest cfg (freedAmb s aid) (s.currentState + 1)).lon },
                   currentState := s.currentState + 1,
                   events := rest } := by
  obtain ⟨a, c, t, lo, ev, f, p⟩ := s
  simp only at hev hth
  subst hev
  simp [step, hth, freedAmb, repoDest]

/-! ### Claims C3 – C7 -/

/-- Claim C6: a Call event arriving while the availability counter is 0
increments the lost-call counter by exactly one iff the arrival time is at
or past the warm-up boundary; no further processing occurs — no ambulance
state change, no travel-time sample recorded, and no Free event generated
(the queue just loses the popped call). -/
theorem lost_call_step_spec (cfg : SimCfg) (s : SimState)
    (time treat lat lon hos : ℝ) (rest : List Event)
    (hev : s.events = Event.call time treat lat lon hos :: rest)
    (h0 : s.currentState = 0) :
    ((warmup ≤ time → (step cfg s).lost = s.lost + 1) ∧
      (¬ warmup ≤ time → (step cfg s).lost = s.lost)) ∧
    (step cfg s).ambulances = s.ambulances ∧
    (step cfg s).travelTimes = s.travelTimes ∧
    (step cfg s).currentState = s.currentState ∧
    (step cfg s).events = rest := by
  rw [step_call_lost cfg s time treat lat lon hos rest hev h0]
  exact ⟨⟨fun h => by simp [h], fun h => by simp [h]⟩, rfl, rfl, rfl, rfl⟩

def wNp : ℕ → ℝ := fun _ => 0

/-- A state with one busy ambulance, counter 0, and a pending post-warm-up
call. -/
def c6State : SimState :=
  ⟨[⟨0, 0, 53.35, -113.75⟩], 0, [], 3, [Event.call 20000 1 53.35 (-113.75) 0], wNp, 0⟩

def c6Cfg : SimCfg := ⟨0, [[]], mkStations 3, mkHospitals 1⟩

/-- Witness for C6: the post-warm-up call is lost (3 → 4) and the queue is
drained with no Free event generated. -/
theorem lost_call_step_spec_witness :
    (step c6Cfg c6State).lost = 4 ∧ (step c6Cfg c6State).events = [] := by
  have h := lost_call_step_spec c6Cfg c6State 20000 1 53.35 (-113.75) 0 [] rfl rfl
  refine ⟨?_, h.2.2.2.2⟩
  have h1 := h.1.1 (by norm_num [warmup])
  simpa [c6State] using h1

/-- Claim C7: on a dispatched call, each travel-time leg (scene leg, and
hospital leg when the call requires transport) is appended to the run's
sample set iff the originating call's arrival time is at or past the
warm-up boundary of 7 simulated days (7·24·60 minutes). -/
theorem warmup_recording_spec (cfg : SimCfg) (s : SimState)
    (time treat lat lon hos : ℝ) (rest : List Event)
    (hev : s.events = Event.call time treat lat lon hos :: rest)
    (hne : s.currentState ≠ 0) :
    warmup = 7 * 24 * 60 ∧
    (warmup ≤ time →
      (hos = 1 → (step cfg s).travelTimes = s.travelTimes
          ++ [get_travel_time_minutes (listMin (callDists s.ambulances lat lon))]
          ++ [get_travel_time_minutes
              (listMin (cfg.hospitals.map fun h => distance_km lat lon h.lat h.lon))]) ∧
      (hos ≠ 1 → (step cfg s).travelTimes = s.travelTimes
          ++ [get_travel_time_minutes (listMin (callDists s.ambulances lat lon))])) ∧
    (¬ warmup ≤ time → (step cfg s).travelTimes = s.travelTimes) := by
  refine ⟨rfl, fun hw => ⟨fun hhos => ?_, fun hhos => ?_⟩, fun hw => ?_⟩
  · rw [step_call_dispatch_hos cfg s time treat lat lon hos rest hev hne hhos]
    simp [hw]
  · rw [step_call_dispatch_nohos cfg s time treat lat lon hos rest hev hne hhos]
    simp [hw]
  · by_cases hhos : hos = 1
    · rw [step_call_dispatch_hos cfg s time treat lat lon hos rest hev hne hhos]
      simp [hw]
    · rw [step_call_dispatch_nohos cfg s time treat lat lon hos rest hev hne hhos]
      simp [hw]

/-- A state with one available ambulance and one pending post-warm-up call
requiring no hospital transport. -/
def c7State : SimState :=
  ⟨[⟨0, 1, 53.35, -113.75⟩], 1, [], 0, [Event.call 20000 1 53.35 (-113.75) 0], wNp, 0⟩

/-- Witness for C7: the post-warm-up scene leg is recorded. -/
theorem warmup_recording_spec_witness :
    (step c6Cfg c7State).travelTimes =
      [get_travel_time_minutes (listMin (callDists c7State.ambulances 53.35 (-113.75)))] := by
  have h := warmup_recording_spec c6Cfg c7State 20000 1 53.35 (-113.75) 0 [] rfl
    (by simp [c7State])
  have h2 := (h.2.1 (by norm_num [warmup])).2 (by norm_num)
  simpa [c7State] using h2

/-- Claim C4: on a Call event processed with a non-zero availability
counter, the dispatcher selects — from the pool of ambulances flagged
available, degrading to the full fleet if that pool is empty — the
ambulance minimizing haversine distance to the call location, ties broken
by first occurrence in enumeration order; it marks the chosen ambulance
busy, decrements the counter by one, moves the chosen ambulance's stored
coordinates to the call site, and leaves every other ambulance unchanged. -/
theorem dispatch_nearest_available_spec (cfg : SimCfg) (s : SimState)
    (time treat lat lon hos : ℝ) (rest : List Event)
    (hev : s.events = Event.call time treat lat lon hos :: rest)
    (hne : s.currentState ≠ 0) (hamb : s.ambulances ≠ []) :
    (availIdx s.ambulances = [] → freePool s.ambulances = List.range s.ambulances.length) ∧
    (availIdx s.ambulances ≠ [] → freePool s.ambulances = availIdx s.ambulances) ∧
    (∀ i ∈ availIdx s.ambulances, (s.ambulances.getD i defaultAmb).availability = 1) ∧
    callDists s.ambulances lat lon = (freePool s.ambulances).map
      (fun i => distance_km (s.ambulances.getD i defaultAmb).lat
        (s.ambulances.getD i defaultAmb).lon lat lon) ∧
    argminIdx (callDists s.ambulances lat lon) < (freePool s.ambulances).length ∧
    (∀ j, j < (freePool s.ambulances).length →
      (callDists s.ambulances lat lon).getD (argminIdx (callDists s.ambulances lat lon)) 0 ≤
        (callDists s.ambulances lat lon).getD j 0) ∧
    (∀ j, j < argminIdx (callDists s.ambulances lat lon) →
      (callDists s.ambulances lat lon).getD (argminIdx (callDists s.ambulances lat lon)) 0 <
        (callDists s.ambulances lat lon).getD j 0) ∧
    chosenPos s.ambulances lat lon =
      (freePool s.ambulances).getD (argminIdx (callDists s.ambulances lat lon)) 0 ∧
    (step cfg s).ambulances = s.ambulances.set (chosenPos s.ambulances lat lon)
      { s.ambulances.getD (chosenPos s.ambulances lat lon) defaultAmb with
          availability := 0, lat := lat, lon := lon } ∧
    (step cfg s).currentState = s.currentState - 1 ∧
    (∀ i, i ≠ chosenPos s.ambulances lat lon →
      (step cfg s).ambulances.getD i defaultAmb = s.ambulances.getD i defaultAmb) := by
  have hd := callDists_ne_nil s.ambulances lat lon hamb
  obtain ⟨harg, hmin, hfirst⟩ := argminIdx_spec _ hd
  rw [callDists_length] at harg
  have hambs : (step cfg s).ambulances = s.ambulances.set (chosenPos s.ambulances lat lon)
      { s.ambulances.getD (chosenPos s.ambulances lat lon) defaultAmb with
          availability := 0, lat := lat, lon := lon } := by
    by_cases hhos : hos = 1
    · rw [step_call_dispatch_hos cfg s time treat lat lon hos rest hev hne hhos]
    · rw [step_call_dispatch_nohos cfg s time treat lat lon hos rest hev hne hhos]
  have hcs : (step cfg s).currentState = s.currentState - 1 := by
    by_cases hhos : hos = 1
    · rw [step_call_dispatch_hos cfg s time treat lat lon hos rest hev hne hhos]
    · rw [step_call_dispatch_nohos cfg s time treat lat lon hos rest hev hne hhos]
  refine ⟨fun h => by simp [freePool, h], fun h => by simp [freePool, h],
    availIdx_mem_avail s.ambulances, rfl, harg,
    fun j hj => hmin j (by rwa [callDists_length]), hfirst, rfl, hambs, hcs, ?_⟩
  intro i hi
  rw [hambs]
  exact getD_set_other _ _ _ _ _ (fun h => hi h.symm)

/-- Witness for C4: the single available ambulance is dispatched and the
counter drops to zero. -/
theorem dispatch_nearest_available_spec_witness :
    (step c6Cfg c7State).currentState = 0 ∧
    chosenPos c7State.ambulances 53.35 (-113.75) =
      (freePool c7State.ambulances).getD
        (argminIdx (callDists c7State.ambulances 53.35 (-113.75))) 0 := by
  have h := dispatch_nearest_available_spec c6Cfg c7State 20000 1 53.35 (-113.75) 0 []
    rfl (by simp [c7State]) (by simp [c7State])
  obtain ⟨_, _, _, _, _, _, _, hch, _, hcs, _⟩ := h
  refine ⟨?_, hch⟩
  rw [hcs]
  rfl

/-- Claim C5: for every dispatched call, exactly one Free event for the
chosen ambulance is inserted into the queue, at
`call.time + scene_travel + treatment` when no hospital transport is
required, and additionally `+ travel to nearest hospital + sampled
hand-off` (the draw `35 * np(pos)` models `np.random.exponential(35)`,
exponential with mean 35 minutes) when it is;
the scene travel time is the travel time of the chosen (argmin) distance,
and the hospital distance is the minimum over all hospitals. -/
theorem dispatch_completion_event_spec (cfg : SimCfg) (s : SimState)
    (time treat lat lon hos : ℝ) (rest : List Event)
    (hev : s.events = Event.call time treat lat lon hos :: rest)
    (hne : s.currentState ≠ 0) (hamb : s.ambulances ≠ []) :
    (hos = 1 → (step cfg s).events = insortR (Event.free
        (time + get_travel_time_minutes (listMin (callDists s.ambulances lat lon)) + treat
          + get_travel_time_minutes
            (listMin (cfg.hospitals.map fun h => distance_km lat lon h.lat h.lon))
          + 35 * s.np s.npPos)
        (s.ambulances.getD (chosenPos s.ambulances lat lon) defaultAmb).id) rest) ∧
    (hos ≠ 1 → (step cfg s).events = insortR (Event.free
        (time + get_travel_time_minutes (listMin (callDists s.ambulances lat lon)) + treat)
        (s.ambulances.getD (chosenPos s.ambulances lat lon) defaultAmb).id) rest) ∧
    (∀ (e : Event) (l : List Event), (insortR e l).length = l.length + 1) ∧
    listMin (callDists s.ambulances lat lon) =
      (callDists s.ambulances lat lon).getD (argminIdx (callDists s.ambulances lat lon)) 0 ∧
    (cfg.hospitals ≠ [] →
      listMin (cfg.hospitals.map fun h => distance_km lat lon h.lat h.lon) ∈
        cfg.hospitals.map (fun h => distance_km lat lon h.lat h.lon) ∧
      (∀ x ∈ cfg.hospitals.map (fun h => distance_km lat lon h.lat h.lon),
        listMin (cfg.hospitals.map fun h => distance_km lat lon h.lat h.lon) ≤ x)) := by
  refine ⟨fun hhos => ?_, fun hhos => ?_, length_insortR,
    listMin_eq_getD_argminIdx _ (callDists_ne_nil s.ambulances lat lon hamb), fun hh => ?_⟩
  · rw [step_call_dispatch_hos cfg s time treat lat lon hos rest hev hne hhos]
  · rw [step_call_dispatch_nohos cfg s time treat lat lon hos rest hev hne hhos]
  · have hmne : cfg.hospitals.map (fun h => distance_km lat lon h.lat h.lon) ≠ [] := by
      simpa using hh
    exact ⟨listMin_mem _ hmne, fun x hx => listMin_le _ x hx⟩

/-- Witness for C5: the single dispatched call schedules exactly one Free
event at `call.time + scene_travel + treatment`. -/
theorem dispatch_completion_event_spec_witness :
    (step c6Cfg c7State).events = [Event.free
      (20000 + get_travel_time_minutes (listMin (callDists c7State.ambulances 53.35 (-113.75))) + 1)
      0] := by
  have h := dispatch_completion_event_spec c6Cfg c7State 20000 1 53.35 (-113.75) 0 []
    rfl (by simp [c7State]) (by simp [c7State])
  have h2 := h.2.1 (by norm_num)
  rw [h2]
  have hch : chosenPos c7State.ambulances 53.35 (-113.75) = 0 := by
    norm_num [chosenPos, freePool, availIdx, callDists, c7State, argminIdx,
      List.range_succ, List.range_zero, List.filter]
  rw [hch]
  rfl

/-- Claim C3 (amended: valid provided the station count is at least 3):
the candidate list used on a reposition trigger — after filtering invalid
ids, with fallback `[1,2,3]` — is non-empty, all its ids are within the
valid range, and the chosen relocation target is within the valid range,
so the station lookup `stations[target-1]` stays in bounds. -/
lemma repoFiltered_spec (cand0 : List ℤ) (n : ℕ) (h3 : 3 ≤ n) :
    repoFiltered cand0 n ≠ [] ∧ ∀ c ∈ repoFiltered cand0 n, 1 ≤ c ∧ c ≤ (n : ℤ) := by
  unfold repoFiltered
  split
  · refine ⟨by simp, ?_⟩
    intro c hc
    have : c = 1 ∨ c = 2 ∨ c = 3 := by simpa using hc
    rcases this with h | h | h <;> subst h <;> constructor <;> omega
  · rename_i hf
    refine ⟨hf, ?_⟩
    intro c hc
    exact of_decide_eq_true (List.mem_filter.mp hc).2

theorem repo_target_in_range (table : List (List ℤ)) (stations : List Station)
    (cs : ℤ) (amb : Amb) (h3 : 3 ≤ stations.length) :
    repoCandidates table stations.length cs ≠ [] ∧
    (∀ c ∈ repoCandidates table stations.length cs,
      1 ≤ c ∧ c ≤ (stations.length : ℤ)) ∧
    1 ≤ repoTarget stations amb (repoCandidates table stations.length cs) ∧
    repoTarget stations amb (repoCandidates table stations.length cs) ≤
      (stations.length : ℤ) ∧
    (repoTarget stations amb (repoCandidates table stations.length cs) - 1).toNat
      < stations.length := by
  obtain ⟨hne, hmem⟩ : repoCandidates table stations.length cs ≠ [] ∧
      ∀ c ∈ repoCandidates table stations.length cs, 1 ≤ c ∧ c ≤ (stations.length : ℤ) :=
    repoFiltered_spec
      (if pyGetD table (min ((table.length : ℤ) - 1) cs) [] = [] then [1, 2, 3]
        else pyGetD table (min ((table.length : ℤ) - 1) cs) []) stations.length h3
  have htmem : repoTarget stations amb (repoCandidates table stations.length cs) ∈
      repoCandidates table stations.length cs := by
    unfold repoTarget
    apply getD_mem
    have hd : repoDists stations amb (repoCandidates table stations.length cs) ≠ [] := by
      simpa [repoDists] using hne
    have h1 := (argminIdx_spec _ hd).1
    simpa [repoDists] using h1
  obtain ⟨hc1, hc2⟩ := hmem _ htmem
  exact ⟨hne, hmem, hc1, hc2, by omega⟩

/-- Witness for the amended C3 at a concrete policy and 3 stations. -/
theorem repo_target_in_range_witness :
    (3:ℕ) ≤ (mkStations 3).length ∧
    1 ≤ repoTarget (mkStations 3) defaultAmb
        (repoCandidates (build_table [7]) (mkStations 3).length 0) ∧
    repoTarget (mkStations 3) defaultAmb
        (repoCandidates (build_table [7]) (mkStations 3).length 0) ≤
      ((mkStations 3).length : ℤ) := by
  have hlen : (3:ℕ) ≤ (mkStations 3).length := by simp [mkStations]
  have h := repo_target_in_range (build_table [7]) (mkStations 3) 0 defaultAmb hlen
  exact ⟨hlen, h.2.2.1, h.2.2.2.1⟩

/-- Counterexample to C3 as stated: with station count 0 (quantified over
"every station count" by the claim) and the empty policy, a triggering
Free event (post-increment counter 1 below threshold 5) computes the
fallback candidate list `[1,2,3]` and chooses target station id 1, which
is NOT within the valid station-id range — the Python lookup
`stations[target-1]` would raise `IndexError`. -/
theorem repo_target_out_of_range_counterexample :
    build_table [] = [[]] ∧
    ((1:ℤ) < 5) ∧
    repoCandidates (build_table []) 0 1 = [1, 2, 3] ∧
    repoTarget [] defaultAmb (repoCandidates (build_table []) 0 1) = 1 ∧
    ¬ (1 ≤ ((List.length ([] : List Station)) : ℤ)) := by
  have hc : repoCandidates (build_table []) 0 1 = [1, 2, 3] := by decide
  refine ⟨by decide, by decide, hc, ?_, by decide⟩
  rw [hc]
  unfold repoTarget
  have harg : argminIdx (repoDists [] defaultAmb [1, 2, 3]) = 0 := by
    simp [repoDists, argminIdx]
  rw [harg]
  rfl

/-! ### Claim C9: `th = 0` never triggers repositioning -/

lemma step_nil (cfg : SimCfg) (s : SimState) (hev : s.events = []) :
    step cfg s = s := by
  obtain ⟨a, c, t, lo, ev, f, p⟩ := s
  simp only at hev
  subst hev
  rfl

lemma step_currentState_nonneg (cfg : SimCfg) (s : SimState)
    (h : 0 ≤ s.currentState) : 0 ≤ (step cfg s).currentState := by
  match hev : s.events with
  | [] =>
    rw [step_nil cfg s hev]
    exact h
  | Event.call time treat lat lon hos :: rest =>
    by_cases h0 : s.currentState = 0
    · rw [step_call_lost cfg s time treat lat lon hos rest hev h0]
      exact h
    · by_cases hhos : hos = 1
      · rw [step_call_dispatch_hos cfg s time treat lat lon hos rest hev h0 hhos]
        have : s.currentState ≠ 0 := h0
        simp only
        omega
      · rw [step_call_dispatch_nohos cfg s time treat lat lon hos rest hev h0 hhos]
        have : s.currentState ≠ 0 := h0
        simp only
        omega
  | Event.free t0 aid :: rest =>
    by_cases hth : s.currentState + 1 < cfg.th
    · rw [step_free_repo cfg s t0 aid rest hev hth]
      simp only
      omega
    · rw [step_free_norepo cfg s t0 aid rest hev hth]
      simp only
      omega

lemma iterate_currentState_nonneg (cfg : SimCfg) (s₀ : SimState)
    (h : 0 ≤ s₀.currentState) : ∀ k, 0 ≤ ((step cfg)^[k] s₀).currentState := by
  intro k
  induction k with
  | zero => simpa using h
  | succ m ih =>
    rw [Function.iterate_succ_apply']
    exact step_currentState_nonneg cfg _ ih

/-- Claim C9: if the threshold is 0, then in every reachable state of a
run (every iterate of `step` from a start with a non-negative counter —
each replication starts with counter = ambulance count ≥ 0), a Free event
never triggers the reposition logic: the guard
`current_state < th` is false after the increment, and the Free step
changes no ambulance coordinates. -/
theorem no_reposition_when_th_zero (cfg : SimCfg) (s₀ : SimState)
    (hth : cfg.th = 0) (h0 : 0 ≤ s₀.currentState) :
    ∀ (k : ℕ) (t0 : ℝ) (aid : ℕ) (rest : List Event),
      ((step cfg)^[k] s₀).events = Event.free t0 aid :: rest →
      ¬ (((step cfg)^[k] s₀).currentState + 1 < cfg.th) ∧
      (∀ i, ((((step cfg)^[k+1] s₀).ambulances.getD i defaultAmb).lat =
          ((((step cfg)^[k] s₀).ambulances.getD i defaultAmb)).lat ∧
        (((step cfg)^[k+1] s₀).ambulances.getD i defaultAmb).lon =
          ((((step cfg)^[k] s₀).ambulances.getD i defaultAmb)).lon)) := by
  intro k t0 aid rest hev
  have hnn := iterate_currentState_nonneg cfg s₀ h0 k
  have hguard : ¬ (((step cfg)^[k] s₀).currentState + 1 < cfg.th) := by
    rw [hth]
    omega
  refine ⟨hguard, ?_⟩
  intro i
  rw [Function.iterate_succ_apply']
  rw [step_free_norepo cfg _ t0 aid rest hev hguard]
  simp only
  by_cases hi : aid = i
  · subst hi
    by_cases hlt : aid < ((step cfg)^[k] s₀).ambulances.length
    · rw [getD_set_self _ _ _ _ hlt]
      exact ⟨rfl, rfl⟩
    · rw [List.set_eq_of_length_le (by omega)]
      exact ⟨rfl, rfl⟩
  · rw [getD_set_other _ _ _ _ _ hi]
    exact ⟨rfl, rfl⟩

/-- A state with one busy ambulance and a pending Free event. -/
def c9State : SimState :=
  ⟨[⟨0, 0, 53.35, -113.75⟩], 0, [], 0, [Event.free 30000 0], wNp, 0⟩

/-- Witness for C9 at a concrete Free event with `th = 0`. -/
theorem no_reposition_when_th_zero_witness :
    ¬ ((((step c6Cfg)^[0] c9State).currentState + 1 < c6Cfg.th)) ∧
    (((step c6Cfg)^[1] c9State).ambulances.getD 0 defaultAmb).lat =
      ((c9State.ambulances.getD 0 defaultAmb)).lat := by
  have h := no_reposition_when_th_zero c6Cfg c9State rfl (by norm_num [c9State]) 0
    30000 0 [] rfl
  exact ⟨h.1, (h.2 0).1⟩

/-! ### Claim C10: the availability counter tracks the availability flags -/

lemma length_filter_range_update (n : ℕ) (p q : ℕ → Bool) (k : ℕ) (hk : k < n)
    (hsame : ∀ i, i ≠ k → p i = q i) :
    ((List.range n).filter p).length + (if q k then 1 else 0) =
      ((List.range n).filter q).length + (if p k then 1 else 0) := by
  induction n with
  | zero => exact absurd hk (Nat.not_lt_zero k)
  | succ m ih =>
    rw [List.range_succ, List.filter_append, List.filter_append,
        List.length_append, List.length_append]
    by_cases hkm : k = m
    · subst hkm
      have hcong : (List.range k).filter p = (List.range k).filter q :=
        List.filter_congr (fun a ha => hsame a (by
          have := List.mem_range.mp ha; omega))
      rw [hcong]
      simp only [List.filter_cons, List.filter_nil]
      by_cases hp : p k
      · by_cases hq : q k <;> simp [hp, hq]
      · by_cases hq : q k <;> simp [hp, hq]
    · have hk' : k < m := by omega
      have hih := ih hk'
      have hpm : p m = q m := hsame m (by omega)
      simp only [List.filter_cons, List.filter_nil, hpm]
      by_cases hq : q m <;> simp [hq] <;> omega

lemma availIdx_length_set (ambs : List Amb) (k : ℕ) (a : Amb)
    (hk : k < ambs.length) :
    (availIdx (ambs.set k a)).length
        + (if (ambs.getD k defaultAmb).availability = 1 then 1 else 0) =
      (availIdx ambs).length + (if a.availability = 1 then 1 else 0) := by
  unfold availIdx
  rw [List.length_set]
  have h := length_filter_range_update ambs.length
    (fun i => decide (((ambs.set k a).getD i defaultAmb).availability = 1))
    (fun i => decide ((ambs.getD i defaultAmb).availability = 1)) k hk
    (fun i hi => by
      show decide (((ambs.set k a).getD i defaultAmb).availability = 1) =
        decide ((ambs.getD i defaultAmb).availability = 1)
      rw [getD_set_other _ _ _ _ _ (fun hh => hi hh.symm)])
  simp only [decide_eq_true_eq] at h
  rw [getD_set_self _ _ _ _ hk] at h
  omega

/-- The event-loop invariant of claim C10: ambulance ids coincide with
their positions, availability flags are binary, the availability counter
equals the number of ambulances flagged available, each busy ambulance has
exactly one pending Free event (an available one has none), and every
pending Free event refers to a fleet index. -/
def LoopInv (s : SimState) : Prop :=
  (∀ i, i < s.ambulances.length → (s.ambulances.getD i defaultAmb).id = i) ∧
  (∀ a ∈ s.ambulances, a.availability = 0 ∨ a.availability = 1) ∧
  s.currentState = ((availIdx s.ambulances).length : ℤ) ∧
  (∀ i, i < s.ambulances.length →
    s.events.countP (isFreeFor i) =
      (if (s.ambulances.getD i defaultAmb).availability = 1 then 0 else 1)) ∧
  (∀ t a, Event.free t a ∈ s.events → a < s.ambulances.length)

lemma loopInv_step (cfg : SimCfg) (s : SimState) (h : LoopInv s) :
    LoopInv (step cfg s) := by
  obtain ⟨hid, hbin, hcnt, hfree, hbound⟩ := h
  match hev : s.events with
  | [] =>
    rw [step_nil cfg s hev]
    exact ⟨hid, hbin, hcnt, hfree, hbound⟩
  | Event.call time treat lat lon hos :: rest =>
    by_cases h0 : s.currentState = 0
    · rw [step_call_lost cfg s time treat lat lon hos rest hev h0]
      refine ⟨hid, hbin, hcnt, ?_, ?_⟩
      · intro i hi
        have hh := hfree i hi
        rw [hev, List.countP_cons] at hh
        simpa [isFreeFor] using hh
      · intro t a ha
        exact hbound t a (by rw [hev]; exact List.mem_cons_of_mem _ ha)
    · -- dispatch
      have hAvailNe : availIdx s.ambulances ≠ [] := by
        intro hnil
        apply h0
        rw [hcnt, hnil]
        simp
      have hambne : s.ambulances ≠ [] := by
        obtain ⟨j, hj⟩ := List.exists_mem_of_ne_nil _ hAvailNe
        have hjlt := availIdx_mem_lt s.ambulances j hj
        intro hnil
        rw [hnil] at hjlt
        simp at hjlt
      have hpool : freePool s.ambulances = availIdx s.ambulances := by
        unfold freePool
        rw [if_neg hAvailNe]
      have hkmem : chosenPos s.ambulances lat lon ∈ availIdx s.ambulances := by
        rw [← hpool]
        exact chosenPos_mem _ _ _ hambne
      have hkav :
          (s.ambulances.getD (chosenPos s.ambulances lat lon) defaultAmb).availability = 1 :=
        availIdx_mem_avail _ _ hkmem
      have hklt : chosenPos s.ambulances lat lon < s.ambulances.length :=
        availIdx_mem_lt _ _ hkmem
      have hkid : (s.ambulances.getD (chosenPos s.ambulances lat lon) defaultAmb).id =
          chosenPos s.ambulances lat lon := hid _ hklt
      have hambs : (step cfg s).ambulances =
          s.ambulances.set (chosenPos s.ambulances lat lon)
            { s.ambulances.getD (chosenPos s.ambulances lat lon) defaultAmb with
                availability := 0, lat := lat, lon := lon } := by
        by_cases hhos : hos = 1
        · rw [step_call_dispatch_hos cfg s time treat lat lon hos rest hev h0 hhos]
        · rw [step_call_dispatch_nohos cfg s time treat lat lon hos rest hev h0 hhos]
      have hcs' : (step cfg s).currentState = s.currentState - 1 := by
        by_cases hhos : hos = 1
        · rw [step_call_dispatch_hos cfg s time treat lat lon hos rest hev h0 hhos]
        · rw [step_call_dispatch_nohos cfg s time treat lat lon hos rest hev h0 hhos]
      have hevents : ∃ T : ℝ, (step cfg s).events = insortR (Event.free T
          (chosenPos s.ambulances lat lon)) rest := by
        by_cases hhos : hos = 1
        · exact ⟨_, by
            rw [step_call_dispatch_hos cfg s time treat lat lon hos rest hev h0 hhos, hkid]⟩
        · exact ⟨_, by
            rw [step_call_dispatch_nohos cfg s time treat lat lon hos rest hev h0 hhos, hkid]⟩
      obtain ⟨T, hevT⟩ := hevents
      refine ⟨?_, ?_, ?_, ?_, ?_⟩
      · intro i hi
        rw [hambs] at hi ⊢
        rw [List.length_set] at hi
        by_cases hik : i = chosenPos s.ambulances lat lon
        · subst hik
          rw [getD_set_self _ _ _ _ hklt]
          exact hkid
        · rw [getD_set_other _ _ _ _ _ (fun hh => hik hh.symm)]
          exact hid i hi
      · intro a ha
        rw [hambs] at ha
        rcases List.mem_or_eq_of_mem_set ha with h' | h'
        · exact hbin a h'
        · subst h'
          left
          rfl
      · rw [hcs', hambs, hcnt]
        have hset := availIdx_length_set s.ambulances (chosenPos s.ambulances lat lon)
          { s.ambulances.getD (chosenPos s.ambulances lat lon) defaultAmb with
              availability := 0, lat := lat, lon := lon } hklt
        rw [if_pos hkav, if_neg (by norm_num)] at hset
        omega
      · intro i hi
        rw [hambs] at hi ⊢
        rw [List.length_set] at hi
        rw [hevT, countP_insortR]
        have hh := hfree i hi
        rw [hev, List.countP_cons] at hh
        have hrest : rest.countP (isFreeFor i) =
            if (s.ambulances.getD i defaultAmb).availability = 1 then 0 else 1 := by
          simpa [isFreeFor] using hh
        by_cases hik : i = chosenPos s.ambulances lat lon
        · subst hik
          rw [getD_set_self _ _ _ _ hklt]
          rw [hrest, if_pos hkav]
          simp [isFreeFor]
        · rw [getD_set_other _ _ _ _ _ (fun hh2 => hik hh2.symm), hrest]
          have : isFreeFor i (Event.free T (chosenPos s.ambulances lat lon)) = false := by
            simp [isFreeFor]
            omega
          rw [this]
          simp
      · intro t a ha
        rw [hambs, List.length_set]
        rw [hevT] at ha
        rcases (mem_insortR _ _ _).mp ha with h' | h'
        · have : a = chosenPos s.ambulances lat lon := by
            injection h' with h1 h2
          omega
        · exact hbound t a (by rw [hev]; exact List.mem_cons_of_mem _ h')
  | Event.free t0 aid :: rest =>
    have hheadmem : Event.free t0 aid ∈ s.events := by
      rw [hev]
      exact List.mem_cons_self _ _
    have haidlt : aid < s.ambulances.length := hbound t0 aid hheadmem
    have hcount := hfree aid haidlt
    rw [hev, List.countP_cons] at hcount
    have hcount' : rest.countP (isFreeFor aid) + 1 =
        if (s.ambulances.getD aid defaultAmb).availability = 1 then 0 else 1 := by
      simpa [isFreeFor] using hcount
    have hbusy : (s.ambulances.getD aid defaultAmb).availability ≠ 1 := by
      intro h1
      rw [if_pos h1] at hcount'
      omega
    have hrest0 : rest.countP (isFreeFor aid) = 0 := by
      rw [if_neg hbusy] at hcount'
      omega
    have main : ∀ (newrec : Amb), newrec.availability = 1 →
        newrec.id = aid →
        LoopInv { s with ambulances := s.ambulances.set aid newrec,
                         currentState := s.currentState + 1,
                         events := rest } := by
      intro newrec hna hnid
      refine ⟨?_, ?_, ?_, ?_, ?_⟩
      · intro i hi
        simp only [List.length_set] at hi
        simp only
        by_cases hik : i = aid
        · subst hik
          rw [getD_set_self _ _ _ _ haidlt]
          exact hnid
        · rw [getD_set_other _ _ _ _ _ (fun hh => hik hh.symm)]
          exact hid i hi
      · intro a ha
        simp only at ha
        rcases List.mem_or_eq_of_mem_set ha with h' | h'
        · exact hbin a h'
        · subst h'
          right
          exact hna
      · simp only
        rw [hcnt]
        have hset := availIdx_length_set s.ambulances aid newrec haidlt
        rw [if_neg hbusy, if_pos hna] at hset
        omega
      · intro i hi
        simp only [List.length_set] at hi
        simp only
        by_cases hik : i = aid
        · subst hik
          rw [getD_set_self _ _ _ _ haidlt, hrest0, if_pos hna]
        · rw [getD_set_other _ _ _ _ _ (fun hh => hik hh.symm)]
          have hh := hfree i hi
          rw [hev, List.countP_cons] at hh
          have : isFreeFor i (Event.free t0 aid) = false := by
            simp [isFreeFor]
            omega
          rw [this] at hh
          simpa using hh
      · intro t a ha
        simp only [List.length_set] at ha ⊢
        exact hbound t a (by rw [hev]; exact List.mem_cons_of_mem _ ha)
    by_cases hth : s.currentState + 1 < cfg.th
    · rw [step_free_repo cfg s t0 aid rest hev hth]
      have hsetset : (s.ambulances.set aid (freedAmb s aid)).set aid
          { freedAmb s aid with
              lat := (repoDest cfg (freedAmb s aid) (s.currentState + 1)).lat,
              lon := (repoDest cfg (freedAmb s aid) (s.currentState + 1)).lon } =
          s.ambulances.set aid
            { freedAmb s aid with
                lat := (repoDest cfg (freedAmb s aid) (s.currentState + 1)).lat,
                lon := (repoDest cfg (freedAmb s aid) (s.currentState + 1)).lon } :=
        List.set_set _ _ _ _
      rw [hsetset]
      exact main _ rfl (hid aid haidlt)
    · rw [step_free_norepo cfg s t0 aid rest hev hth]
      exact main _ rfl (hid aid haidlt)

def initEvents (calls : List Event) : List Event :=
  calls.foldl (fun acc c => insortR c acc) []

/-- The state a replication's event loop starts from: the generated fleet,
counter = ambulance count, no observations, the generated calls inserted
into the queue. -/
def initState (n : ℕ) (calls : List Event) (f : ℕ → ℝ) (p : ℕ) : SimState :=
  ⟨mkAmbulances n, (n : ℤ), [], 0, initEvents calls, f, p⟩

lemma mkAmbulances_length (n : ℕ) : (mkAmbulances n).length = n := by
  simp [mkAmbulances]

lemma mkAmbulances_getD (n i : ℕ) (h : i < n) :
    (mkAmbulances n).getD i defaultAmb =
      ⟨i, 1, station_lat.getD (home_station.getD i 0) 0,
        station_lon.getD (home_station.getD i 0) 0⟩ := by
  unfold mkAmbulances
  rw [List.getD_eq_getElem _ _ (by simpa using h)]
  simp

lemma mem_foldl_insortR (calls : List Event) : ∀ (acc : List Event) (e : Event),
    e ∈ calls.foldl (fun acc c => insortR c acc) acc → e ∈ acc ∨ e ∈ calls := by
  induction calls with
  | nil =>
    intro acc e h
    exact Or.inl h
  | cons c cs ih =>
    intro acc e h
    rcases ih (insortR c acc) e h with h' | h'
    · rcases (mem_insortR e c acc).mp h' with h2 | h2
      · right
        exact h2 ▸ List.mem_cons_self c cs
      · left
        exact h2
    · right
      exact List.mem_cons_of_mem c h'

lemma mem_initEvents (calls : List Event) (e : Event) :
    e ∈ initEvents calls → e ∈ calls := by
  intro h
  rcases mem_foldl_insortR calls [] e h with h' | h'
  · simp at h'
  · exact h'

lemma loopInv_initState (n : ℕ) (calls : List Event) (f : ℕ → ℝ) (p : ℕ)
    (hcalls : ∀ e ∈ calls, isCallE e = true) : LoopInv (initState n calls f p) := by
  have havail : availIdx (mkAmbulances n) = List.range n := by
    unfold availIdx
    rw [mkAmbulances_length]
    apply List.filter_eq_self.mpr
    intro i hi
    have hilt := List.mem_range.mp hi
    show decide (((mkAmbulances n).getD i defaultAmb).availability = 1) = true
    rw [mkAmbulances_getD n i hilt]
    simp
  refine ⟨?_, ?_, ?_, ?_, ?_⟩
  · intro i hi
    simp only [initState, mkAmbulances_length] at hi
    rw [show (initState n calls f p).ambulances = mkAmbulances n from rfl,
        mkAmbulances_getD n i hi]
  · intro a ha
    simp only [initState, mkAmbulances, List.mem_map] at ha
    obtain ⟨i, _, rfl⟩ := ha
    right
    rfl
  · show (n : ℤ) = ((availIdx (mkAmbulances n)).length : ℤ)
    rw [havail, List.length_range]
  · intro i hi
    have hzero : (initEvents calls).countP (isFreeFor i) = 0 :=
      List.countP_eq_zero.mpr (fun e he => by
        have hc := hcalls e (mem_initEvents calls e he)
        cases e with
        | call _ _ _ _ _ => simp [isFreeFor]
        | free _ _ => simp [isCallE] at hc)
    show (initEvents calls).countP (isFreeFor i) = _
    rw [hzero]
    simp only [initState, mkAmbulances_length] at hi
    rw [show (initState n calls f p).ambulances = mkAmbulances n from rfl,
        mkAmbulances_getD n i hi]
    simp
  · intro t a ha
    have hc := hcalls _ (mem_initEvents calls _ ha)
    simp [isCallE] at hc

/-- Claim C10: in every reachable state of a replication's event loop the
availability counter equals the number of ambulances flagged available
(the invariant `LoopInv` also records that each busy unit has exactly one
pending Free event); it holds in the replication's initial state (counter
= ambulance count, all units available) and is preserved by every step;
consequently the dispatcher's degrade-to-full-fleet fallback is
unreachable: whenever the counter is non-zero, the available pool is
non-empty. -/
theorem availability_counter_invariant :
    (∀ (cfg : SimCfg) (s₀ : SimState), LoopInv s₀ →
      (∀ k, LoopInv ((step cfg)^[k] s₀)) ∧
      (∀ k, ((step cfg)^[k] s₀).currentState ≠ 0 →
        availIdx (((step cfg)^[k] s₀).ambulances) ≠ [])) ∧
    (∀ (n : ℕ) (calls : List Event) (f : ℕ → ℝ) (p : ℕ),
      (∀ e ∈ calls, isCallE e = true) → LoopInv (initState n calls f p)) := by
  constructor
  · intro cfg s₀ h
    have hiter : ∀ k, LoopInv ((step cfg)^[k] s₀) := by
      intro k
      induction k with
      | zero => simpa using h
      | succ m ih =>
        rw [Function.iterate_succ_apply']
        exact loopInv_step cfg _ ih
    refine ⟨hiter, ?_⟩
    intro k hk
    obtain ⟨_, _, hcnt, _, _⟩ := hiter k
    intro hnil
    apply hk
    rw [hcnt, hnil]
    simp
  · exact loopInv_initState

/-- Witness for C10 at a concrete one-ambulance initial state. -/
theorem availability_counter_invariant_witness :
    LoopInv (initState 1 [] wNp 0) ∧
    ((initState 1 [] wNp 0).currentState ≠ 0 →
      availIdx ((initState 1 [] wNp 0).ambulances) ≠ []) := by
  have hinit := availability_counter_invariant.2 1 [] wNp 0 (by simp)
  refine ⟨hinit, ?_⟩
  exact (availability_counter_invariant.1 c6Cfg (initState 1 [] wNp 0) hinit).2 0

/-! ### Synthetic call stream, RNG model and the fitness function -/

/-- The arrival intensity λ at simulated minute `t`: the shift base rate
(Shift 1: 05:00–13:00 and Shift 2: 13:00–21:00 both 0.2967, else Shift 3:
0.1483) times the day-of-week multiplier (Monday..Sunday =
1.0, 0.8, 0.8, 1.0, 1.2, 1.2, 1.0); `t // (24*60)` and `t % (24*60)` on
floats are floor division and `t - 1440*⌊t/1440⌋`. -/
def lamAt (t : ℝ) : ℝ :=
  (if 5 * 60 ≤ t - 24 * 60 * (Int.floor (t / (24 * 60)) : ℝ) ∧
       t - 24 * 60 * (Int.floor (t / (24 * 60)) : ℝ) < 13 * 60 then (0.2967 : ℝ)
    else if 13 * 60 ≤ t - 24 * 60 * (Int.floor (t / (24 * 60)) : ℝ) ∧
       t - 24 * 60 * (Int.floor (t / (24 * 60)) : ℝ) < 21 * 60 then (0.2967 : ℝ)
    else (0.1483 : ℝ)) *
  (if Int.floor (t / (24 * 60)) % 7 = 0 ∨ Int.floor (t / (24 * 60)) % 7 = 3 ∨
       Int.floor (t / (24 * 60)) % 7 = 6 then (1.0 : ℝ)
    else if Int.floor (t / (24 * 60)) % 7 = 1 ∨ Int.floor (t / (24 * 60)) % 7 = 2
    then (0.8 : ℝ)
    else (1.2 : ℝ))

/-- The `while t < total_sim` loop of `generate_interarrivals`, with a fuel
bound on the iteration count (the Python loop runs until the drawn
interarrivals push `t` past `total_sim`; every run examined below exits
through the guard long before the fuel is exhausted).  Each
`np.random.exponential(1/lam)` draw is modelled as `(1/lam) * stream pos`,
advancing the stream position. -/
def genInterAux (fuel : ℕ) (totalSim : ℝ) (s : ℕ → ℝ) (pos : ℕ) (t : ℝ)
    (acc : List ℝ) : List ℝ × ℕ :=
  match fuel with
  | 0 => (acc, pos)
  | fuel' + 1 =>
    if t < totalSim then
      genInterAux fuel' totalSim s (pos + 1) (t + (1 / lamAt t) * s pos)
        (acc ++ [(1 / lamAt t) * s pos])
    else (acc, pos)

def generate_interarrivals (total_days : ℕ) (s : ℕ → ℝ) (pos : ℕ) :
    List ℝ × ℕ :=
  genInterAux 1000000 ((total_days : ℝ) * 24 * 60) s pos 0 []

/-- `np.random.exponential(scale, size=n)`: `n` consecutive scaled draws. -/
def drawExpList (scale : ℝ) (s : ℕ → ℝ) (pos n : ℕ) : List ℝ × ℕ :=
  ((List.range n).map fun i => scale * s (pos + i), pos + n)

/-- `synthetic_call_locations`: `n` uniform points in the Edmonton-ish
bounding box; `np.random.uniform(lo, hi, size=n)` is modelled as
`lo + (hi - lo) * u` over `n` raw draws — all lats first, then all lons. -/
def synthetic_call_locations (s : ℕ → ℝ) (pos n : ℕ) : List (ℝ × ℝ) × ℕ :=
  ((List.range n).map fun i =>
    (53.35 + (53.70 - 53.35) * s (pos + i),
     -113.75 + (-113.25 - -113.75) * s (pos + n + i)), pos + 2 * n)

/-- `[1 if random.random() < 0.7 else 0 for _ in range(n)]` over the
`random`-module stream (stored as floats by the source). -/
def drawHospitalReq (s : ℕ → ℝ) (pos n : ℕ) : List ℝ × ℕ :=
  ((List.range n).map fun i => if s (pos + i) < 0.7 then (1:ℝ) else 0, pos + n)

/-- Build the call events: arrival times are running sums of the
interarrivals, zipped with treatment times, coordinates and the
hospital-required flags. -/
def buildCalls : List ℝ → List ℝ → List (ℝ × ℝ) → List ℝ → ℝ → List Event
  | ia :: ias, tr :: trs, co :: cos, ho :: hos, t =>
    Event.call (t + ia) tr co.1 co.2 ho :: buildCalls ias trs cos hos (t + ia)
  | _, _, _, _, _ => []

/-- The process-global RNG state: the `np.random` stream and the `random`
stream, each with its current position.  The module-level
`random.seed(SEED); np.random.seed(SEED)` fixes both streams once per
process; every consumer advances the shared positions. -/
structure RngState where
  np : ℕ → ℝ
  npPos : ℕ
  py : ℕ → ℝ
  pyPos : ℕ

/-- The module-level seed of the source. -/
def SEED : ℕ := 31

/-- The returned mapping: exactly the three fields of the source's dict. -/
structure Metrics where
  median_response_time : ℝ
  coverage : ℝ
  lost_calls : ℝ

/-- Per-replication reduction: median and coverage over the pooled
travel-time samples, with sentinels 999.0 / 0.0 on an empty sample set,
plus the lost-call count. -/
def repMetrics (tt : List ℝ) (lost : ℕ) : ℝ × ℝ × ℝ :=
  if tt = [] then (999.0, 0.0, (lost : ℝ))
  else (listMedian tt, listMean (tt.map fun t => if t ≤ 9 then (1:ℝ) else 0),
    (lost : ℝ))

/-- Run one replication's event loop over an already-generated call list
and reduce it to (median, coverage, lost); also returns the np-stream
position after the in-loop hospital hand-off draws. -/
def simulateCalls (th : ℤ) (table : List (List ℤ)) (n stations_n : ℕ)
    (calls : List Event) (f : ℕ → ℝ) (p : ℕ) : (ℝ × ℝ × ℝ) × ℕ :=
  let gen := fixed_location_generator n stations_n 5
  let s1 := runLoop ⟨th, table, gen.2.1, gen.2.2⟩ (initState n calls f p)
  (repMetrics s1.travelTimes s1.lost, s1.npPos)

/-- One iteration of the `for _ in range(iterations)` body: draw the
synthetic data from the global streams, simulate, and return the metrics
triple together with the advanced global RNG state. -/
def runReplication (th : ℤ) (table : List (List ℤ)) (n stations_n : ℕ)
    (rng : RngState) : (ℝ × ℝ × ℝ) × RngState :=
  let ia := generate_interarrivals 35 rng.np rng.npPos
  let tr := drawExpList (1 / 15) rng.np ia.2 ia.1.length
  let co := synthetic_call_locations rng.np tr.2 ia.1.length
  let ho := drawHospitalReq rng.py rng.pyPos ia.1.length
  let res := simulateCalls th table n stations_n (buildCalls ia.1 tr.1 co.1 ho.1 0)
    rng.np co.2
  (res.1, ⟨rng.np, res.2, rng.py, ho.2⟩)

def fitnessAux (th : ℤ) (table : List (List ℤ)) (n stations_n : ℕ) :
    ℕ → RngState → List ℝ → List ℝ → List ℝ → Metrics × RngState
  | 0, rng, medians, coverages, losts =>
    (⟨listMean medians, listMean coverages, listMean losts⟩, rng)
  | iters + 1, rng, medians, coverages, losts =>
    fitnessAux th table n stations_n iters (runReplication th table n stations_n rng).2
      (medians ++ [(runReplication th table n stations_n rng).1.1])
      (coverages ++ [(runReplication th table n stations_n rng).1.2.1])
      (losts ++ [(runReplication th table n stations_n rng).1.2.2])

/-- `fitness_function(primary_list, th, AMBULANCE_NUMBER, STATIONS_NUMBER,
iterations)` (the Python default for `iterations` is 3), returning the
metrics dict and the advanced global RNG state. -/
def fitness_function (primary_list : List ℤ) (th : ℤ)
    (AMBULANCE_NUMBER STATIONS_NUMBER : ℕ) (iterations : ℕ)
    (rng : RngState) : Metrics × RngState :=
  fitnessAux th (build_table primary_list) AMBULANCE_NUMBER STATIONS_NUMBER
    iterations rng [] [] []

/-- The list of per-replication metric triples produced by `iterations`
successive replications from a given global RNG state. -/
def repTriples (th : ℤ) (table : List (List ℤ)) (n stations_n : ℕ) :
    ℕ → RngState → List (ℝ × ℝ × ℝ)
  | 0, _ => []
  | iters + 1, rng =>
    (runReplication th table n stations_n rng).1 ::
      repTriples th table n stations_n iters (runReplication th table n stations_n rng).2

/-- The global RNG state after `iterations` successive replications. -/
def repRngEnd (th : ℤ) (table : List (List ℤ)) (n stations_n : ℕ) :
    ℕ → RngState → RngState
  | 0, rng => rng
  | iters + 1, rng =>
    repRngEnd th table n stations_n iters (runReplication th table n stations_n rng).2

/-! ### Claim C1: metrics aggregation -/

lemma sum_indicator (tt : List ℝ) :
    (tt.map fun t => if t ≤ 9 then (1:ℝ) else 0).sum =
      ((tt.filter fun t => decide (t ≤ 9)).length : ℝ) := by
  induction tt with
  | nil => simp
  | cons x xs ih =>
    by_cases hx : x ≤ 9
    · have hf : (x :: xs).filter (fun t => decide (t ≤ 9)) =
          x :: xs.filter (fun t => decide (t ≤ 9)) := by
        simp [hx]
      rw [List.map_cons, List.sum_cons, if_pos hx, ih, hf, List.length_cons]
      push_cast
      ring
    · have hf : (x :: xs).filter (fun t => decide (t ≤ 9)) =
          xs.filter (fun t => decide (t ≤ 9)) := by
        simp [hx]
      rw [List.map_cons, List.sum_cons, if_neg hx, ih, hf]
      ring

lemma coverage_frac (tt : List ℝ) :
    listMean (tt.map fun t => if t ≤ 9 then (1:ℝ) else 0) =
      ((tt.filter fun t => decide (t ≤ 9)).length : ℝ) / tt.length := by
  unfold listMean
  rw [sum_indicator, List.length_map]

lemma fitnessAux_eq (th : ℤ) (table : List (List ℤ)) (n sn : ℕ) :
    ∀ (iters : ℕ) (rng : RngState) (meds covs losts : List ℝ),
    fitnessAux th table n sn iters rng meds covs losts =
      (⟨listMean (meds ++ (repTriples th table n sn iters rng).map fun x => x.1),
        listMean (covs ++ (repTriples th table n sn iters rng).map fun x => x.2.1),
        listMean (losts ++ (repTriples th table n sn iters rng).map fun x => x.2.2)⟩,
       repRngEnd th table n sn iters rng) := by
  intro iters
  induction iters with
  | zero =>
    intro rng meds covs losts
    simp [fitnessAux, repTriples, repRngEnd]
  | succ m ih =>
    intro rng meds covs losts
    simp only [fitnessAux, repTriples, repRngEnd, ih, List.map_cons]
    simp [List.append_assoc]

/-- Claim C1: per replication the median response time is the median of
the pooled travel-time samples and the coverage is the fraction of
recorded samples ≤ 9 minutes; an empty sample set yields the sentinels
999.0 / 0.0 (and with it an empty call stream yields
median 999.0, coverage 0.0, lost 0.0); the returned mapping is the
three-field `Metrics` record whose fields are the arithmetic means of the
per-replication quantities over all iterations. -/
theorem fitness_metrics_aggregation_spec :
    (∀ (th : ℤ) (table : List (List ℤ)) (n sn : ℕ) (f : ℕ → ℝ) (p : ℕ),
      (simulateCalls th table n sn [] f p).1 = (999.0, 0.0, 0.0)) ∧
    (∀ (tt : List ℝ) (lost : ℕ), tt ≠ [] →
      repMetrics tt lost = (listMedian tt,
        ((tt.filter fun t => decide (t ≤ 9)).length : ℝ) / tt.length, (lost : ℝ))) ∧
    (∀ (tt : List ℝ) (lost : ℕ), tt = [] →
      repMetrics tt lost = (999.0, 0.0, (lost : ℝ))) ∧
    (∀ (prim : List ℤ) (th : ℤ) (n sn iters : ℕ) (rng : RngState),
      fitness_function prim th n sn iters rng =
        (⟨listMean ((repTriples th (build_table prim) n sn iters rng).map fun x => x.1),
          listMean ((repTriples th (build_table prim) n sn iters rng).map fun x => x.2.1),
          listMean ((repTriples th (build_table prim) n sn iters rng).map fun x => x.2.2)⟩,
         repRngEnd th (build_table prim) n sn iters rng)) := by
  refine ⟨?_, ?_, ?_, ?_⟩
  · intro th table n sn f p
    simp only [simulateCalls]
    have hev : (initState n [] f p).events = [] := by
      simp [initState, initEvents]
    rw [runLoop_nil _ _ hev]
    norm_num [initState, repMetrics]
  · intro tt lost h
    unfold repMetrics
    rw [if_neg h, coverage_frac tt]
  · intro tt lost h
    unfold repMetrics
    rw [if_pos h]
  · intro prim th n sn iters rng
    unfold fitness_function
    rw [fitnessAux_eq]
    simp

/-- Witness for C1: non-empty sample set `[5]` with 2 lost calls. -/
theorem fitness_metrics_aggregation_witness :
    ([(5:ℝ)] ≠ []) ∧
    repMetrics [(5:ℝ)] 2 = (listMedian [(5:ℝ)],
      ((([(5:ℝ)].filter fun t => decide (t ≤ 9)).length : ℝ) / ([(5:ℝ)] : List ℝ).length),
      ((2:ℕ) : ℝ)) :=
  ⟨by simp, fitness_metrics_aggregation_spec.2.1 [(5:ℝ)] 2 (by simp)⟩

/-! ### Claim C2: determinism relative to the global RNG state -/

/-- Two global RNG states agree when their positions coincide and their
streams coincide from those positions onward (the past of the streams is
irrelevant to any later computation). -/
def RngAgrees (r₁ r₂ : RngState) : Prop :=
  r₁.npPos = r₂.npPos ∧ r₁.pyPos = r₂.pyPos ∧
  (∀ k, r₁.npPos ≤ k → r₁.np k = r₂.np k) ∧
  (∀ k, r₁.pyPos ≤ k → r₁.py k = r₂.py k)

lemma genInterAux_agree : ∀ (fuel : ℕ) (totalSim : ℝ) (s₁ s₂ : ℕ → ℝ)
    (pos : ℕ) (t : ℝ) (acc : List ℝ),
    (∀ k, pos ≤ k → s₁ k = s₂ k) →
    genInterAux fuel totalSim s₁ pos t acc = genInterAux fuel totalSim s₂ pos t acc := by
  intro fuel
  induction fuel with
  | zero => intro _ _ _ _ _ _ _; rfl
  | succ m ih =>
    intro totalSim s₁ s₂ pos t acc h
    simp only [genInterAux]
    split
    · rw [h pos le_rfl]
      exact ih _ _ _ _ _ _ (fun k hk => h k (by omega))
    · rfl

lemma genInterAux_pos_le : ∀ (fuel : ℕ) (totalSim : ℝ) (s : ℕ → ℝ)
    (pos : ℕ) (t : ℝ) (acc : List ℝ),
    pos ≤ (genInterAux fuel totalSim s pos t acc).2 := by
  intro fuel
  induction fuel with
  | zero => intro _ _ _ _ _; exact le_rfl
  | succ m ih =>
    intro totalSim s pos t acc
    simp only [genInterAux]
    split
    · exact le_trans (Nat.le_succ pos) (ih _ _ _ _ _)
    · exact le_rfl

lemma step_np_congr (cfg : SimCfg) (a : List Amb) (c : ℤ) (t : List ℝ) (lo : ℕ)
    (ev : List Event) (f g : ℕ → ℝ) (p : ℕ) (h : f p = g p) :
    step cfg ⟨a, c, t, lo, ev, g, p⟩ =
      { step cfg ⟨a, c, t, lo, ev, f, p⟩ with np := g } := by
  cases ev with
  | nil => rfl
  | cons e rest =>
    cases e with
    | call time treat lat lon hos =>
      simp only [step]
      split_ifs <;> simp [h]
    | free t0 aid =>
      simp only [step]
      split_ifs <;> rfl

lemma step_npPos_ge (cfg : SimCfg) (s : SimState) : s.npPos ≤ (step cfg s).npPos := by
  match hev : s.events with
  | [] =>
    rw [step_nil cfg s hev]
  | Event.call time treat lat lon hos :: rest =>
    by_cases h0 : s.currentState = 0
    · rw [step_call_lost cfg s time treat lat lon hos rest hev h0]
    · by_cases hhos : hos = 1
      · rw [step_call_dispatch_hos cfg s time treat lat lon hos rest hev h0 hhos]
        exact Nat.le_succ _
      · rw [step_call_dispatch_nohos cfg s time treat lat lon hos rest hev h0 hhos]
  | Event.free t0 aid :: rest =>
    by_cases hth : s.currentState + 1 < cfg.th
    · rw [step_free_repo cfg s t0 aid rest hev hth]
    · rw [step_free_norepo cfg s t0 aid rest hev hth]

lemma step_np_eq (cfg : SimCfg) (s : SimState) : (step cfg s).np = s.np := by
  match hev : s.events with
  | [] =>
    rw [step_nil cfg s hev]
  | Event.call time treat lat lon hos :: rest =>
    by_cases h0 : s.currentState = 0
    · rw [step_call_lost cfg s time treat lat lon hos rest hev h0]
    · by_cases hhos : hos = 1
      · rw [step_call_dispatch_hos cfg s time treat lat lon hos rest hev h0 hhos]
      · rw [step_call_dispatch_nohos cfg s time treat lat lon hos rest hev h0 hhos]
  | Event.free t0 aid :: rest =>
    by_cases hth : s.currentState + 1 < cfg.th
    · rw [step_free_repo cfg s t0 aid rest hev hth]
    · rw [step_free_norepo cfg s t0 aid rest hev hth]

lemma runLoop_np_congr (cfg : SimCfg) : ∀ (n : ℕ) (s : SimState) (g : ℕ → ℝ),
    stepMeasure s ≤ n → (∀ k, s.npPos ≤ k → s.np k = g k) →
    runLoop cfg { s with np := g } = { runLoop cfg s with np := g } := by
  intro n
  induction n with
  | zero =>
    intro s g hm _
    have hev : s.events = [] := by
      unfold stepMeasure at hm
      exact List.length_eq_zero.mp (by omega)
    rw [runLoop_nil _ _ hev, runLoop_nil _ _ (show ({ s with np := g }).events = [] from hev)]
  | succ m ih =>
    intro s g hm hagree
    by_cases hev : s.events = []
    · rw [runLoop_nil _ _ hev,
        runLoop_nil _ _ (show ({ s with np := g }).events = [] from hev)]
    · rw [runLoop_cons _ _ hev,
        runLoop_cons _ _ (show ({ s with np := g }).events ≠ [] from hev)]
      have hcongr : step cfg { s with np := g } = { step cfg s with np := g } := by
        obtain ⟨a, c, t, lo, ev, f, p⟩ := s
        exact step_np_congr cfg a c t lo ev f g p (hagree p le_rfl)
      rw [hcongr]
      apply ih (step cfg s) g
      · have := stepMeasure_lt cfg s hev
        omega
      · intro k hk
        rw [step_np_eq cfg s]
        exact hagree k (le_trans (step_npPos_ge cfg s) hk)

lemma runLoop_npPos_ge (cfg : SimCfg) : ∀ (n : ℕ) (s : SimState),
    stepMeasure s ≤ n → s.npPos ≤ (runLoop cfg s).npPos := by
  intro n
  induction n with
  | zero =>
    intro s hm
    have hev : s.events = [] := by
      unfold stepMeasure at hm
      exact List.length_eq_zero.mp (by omega)
    rw [runLoop_nil _ _ hev]
  | succ m ih =>
    intro s hm
    by_cases hev : s.events = []
    · rw [runLoop_nil _ _ hev]
    · rw [runLoop_cons _ _ hev]
      refine le_trans (step_npPos_ge cfg s) (ih (step cfg s) ?_)
      have := stepMeasure_lt cfg s hev
      omega

lemma simulateCalls_np_agree (th : ℤ) (table : List (List ℤ)) (n sn : ℕ)
    (calls : List Event) (f g : ℕ → ℝ) (p : ℕ)
    (h : ∀ k, p ≤ k → f k = g k) :
    simulateCalls th table n sn calls g p = simulateCalls th table n sn calls f p := by
  simp only [simulateCalls]
  have hinit : initState n calls g p = { initState n calls f p with np := g } := rfl
  rw [hinit, runLoop_np_congr _ (stepMeasure (initState n calls f p)) _ g le_rfl h]

lemma simulateCalls_npPos_ge (th : ℤ) (table : List (List ℤ)) (n sn : ℕ)
    (calls : List Event) (f : ℕ → ℝ) (p : ℕ) :
    p ≤ (simulateCalls th table n sn calls f p).2 := by
  simp only [simulateCalls]
  exact runLoop_npPos_ge
    ⟨th, table, (fixed_location_generator n sn 5).2.1, (fixed_location_generator n sn 5).2.2⟩
    (stepMeasure (initState n calls f p)) (initState n calls f p) le_rfl

lemma runReplication_agree (th : ℤ) (table : List (List ℤ)) (n sn : ℕ)
    (r₁ r₂ : RngState) (h : RngAgrees r₁ r₂) :
    (runReplication th table n sn r₁).1 = (runReplication th table n sn r₂).1 ∧
    RngAgrees (runReplication th table n sn r₁).2 (runReplication th table n sn r₂).2 := by
  obtain ⟨f₁, P₁, g₁, Q₁⟩ := r₁
  obtain ⟨f₂, P₂, g₂, Q₂⟩ := r₂
  obtain ⟨hnp, hpy, hnpa, hpya⟩ := h
  simp only at hnp hpy hnpa hpya
  subst hnp hpy
  simp only [runReplication]
  have hia : generate_interarrivals 35 f₂ P₁ = generate_interarrivals 35 f₁ P₁ := by
    unfold generate_interarrivals
    exact (genInterAux_agree _ _ _ _ _ _ _ hnpa).symm
  rw [hia]
  have hposle : P₁ ≤ (generate_interarrivals 35 f₁ P₁).2 := by
    unfold generate_interarrivals
    exact genInterAux_pos_le _ _ _ _ _ _
  set IA := generate_interarrivals 35 f₁ P₁ with hIA
  have htr : drawExpList (1 / 15) f₂ IA.2 IA.1.length =
      drawExpList (1 / 15) f₁ IA.2 IA.1.length := by
    unfold drawExpList
    congr 1
    apply List.map_congr_left
    intro i _
    rw [hnpa _ (by omega)]
  rw [htr]
  set TR := drawExpList (1 / 15) f₁ IA.2 IA.1.length with hTR
  have hTR2 : TR.2 = IA.2 + IA.1.length := by
    simp [hTR, drawExpList]
  have hco : synthetic_call_locations f₂ TR.2 IA.1.length =
      synthetic_call_locations f₁ TR.2 IA.1.length := by
    unfold synthetic_call_locations
    congr 1
    apply List.map_congr_left
    intro i _
    rw [hnpa _ (by omega), hnpa _ (by omega)]
  rw [hco]
  set CO := synthetic_call_locations f₁ TR.2 IA.1.length with hCO
  have hCO2 : CO.2 = TR.2 + 2 * IA.1.length := by
    simp [hCO, synthetic_call_locations]
  have hho : drawHospitalReq g₂ Q₁ IA.1.length = drawHospitalReq g₁ Q₁ IA.1.length := by
    unfold drawHospitalReq
    congr 1
    apply List.map_congr_left
    intro i _
    rw [hpya _ (by omega)]
  rw [hho]
  set HO := drawHospitalReq g₁ Q₁ IA.1.length with hHO
  have hHO2 : HO.2 = Q₁ + IA.1.length := by
    simp [hHO, drawHospitalReq]
  have hsim : simulateCalls th table n sn (buildCalls IA.1 TR.1 CO.1 HO.1 0) f₂ CO.2 =
      simulateCalls th table n sn (buildCalls IA.1 TR.1 CO.1 HO.1 0) f₁ CO.2 := by
    apply simulateCalls_np_agree
    intro k hk
    apply hnpa
    omega
  rw [hsim]
  have hres2 : CO.2 ≤ (simulateCalls th table n sn (buildCalls IA.1 TR.1 CO.1 HO.1 0) f₁ CO.2).2 :=
    simulateCalls_npPos_ge th table n sn (buildCalls IA.1 TR.1 CO.1 HO.1 0) f₁ CO.2
  set RES := simulateCalls th table n sn (buildCalls IA.1 TR.1 CO.1 HO.1 0) f₁ CO.2 with hRES
  refine ⟨rfl, rfl, rfl, fun k hk => hnpa k ?_, fun k hk => hpya k ?_⟩
  · have hk' : RES.2 ≤ k := hk
    omega
  · have hk' : HO.2 ≤ k := hk
    omega


lemma fitnessAux_agree (th : ℤ) (table : List (List ℤ)) (n sn : ℕ) :
    ∀ (iters : ℕ) (r₁ r₂ : RngState) (meds covs losts : List ℝ),
    RngAgrees r₁ r₂ →
    (fitnessAux th table n sn iters r₁ meds covs losts).1 =
      (fitnessAux th table n sn iters r₂ meds covs losts).1 ∧
    RngAgrees (fitnessAux th table n sn iters r₁ meds covs losts).2
      (fitnessAux th table n sn iters r₂ meds covs losts).2 := by
  intro iters
  induction iters with
  | zero =>
    intro r₁ r₂ meds covs losts h
    exact ⟨rfl, h⟩
  | succ m ih =>
    intro r₁ r₂ meds covs losts h
    obtain ⟨h1, h2⟩ := runReplication_agree th table n sn r₁ r₂ h
    simp only [fitnessAux]
    rw [h1]
    exact ih _ _ _ _ _ h2

/-- Claim C2 (amended): the metrics are a deterministic function of the
inputs and of the global RNG streams from their current positions onward
— two evaluations with identical inputs whose global RNG states agree
produce identical metrics (and again-agreeing final states).  This is the
determinism the code actually provides: the module seeds the global
generators once per process, so the state advances across replications
and callers, and identical calls made at different points of the process
need NOT produce identical metrics (see the counterexample). -/
theorem rng_agreement_determinism :
    ∀ (prim : List ℤ) (th : ℤ) (n sn iters : ℕ) (r₁ r₂ : RngState),
      RngAgrees r₁ r₂ →
      (fitness_function prim th n sn iters r₁).1 =
        (fitness_function prim th n sn iters r₂).1 ∧
      RngAgrees (fitness_function prim th n sn iters r₁).2
        (fitness_function prim th n sn iters r₂).2 := by
  intro prim th n sn iters r₁ r₂ h
  unfold fitness_function
  exact fitnessAux_agree th (build_table prim) n sn iters r₁ r₂ [] [] [] h

/-- A concrete raw `np.random` stream: the first fitness evaluation
consumes positions 0–3 (one big interarrival, one treatment, one lat, one
lon); a second identical evaluation continues at position 4 and sees two
calls, a long treatment, and the same call site. -/
def npC2 : ℕ → ℝ := fun k =>
  if k = 0 then 14830
  else if k = 2 then 246919 / 350000
  else if k = 3 then 41229 / 62500
  else if k = 4 then 2966
  else if k = 5 then 5932
  else if k = 6 then 750000
  else if k = 8 then 246919 / 350000
  else if k = 9 then 246919 / 350000
  else if k = 10 then 41229 / 62500
  else if k = 11 then 41229 / 62500
  else 0

/-- A concrete raw `random` stream: every draw is 0.9, so no call requires
hospital transport. -/
def pyC2 : ℕ → ℝ := fun _ => 0.9

/-- The global RNG state at process start (after the module-level seeding,
the streams are fixed and both positions are 0). -/
def rngC2 : RngState := ⟨npC2, 0, pyC2, 0⟩

def cfgC2 : SimCfg := ⟨0, [[]], mkStations 0, mkHospitals 5⟩

lemma lamAt_zero : lamAt 0 = 0.1483 := by
  unfold lamAt
  rw [show Int.floor ((0:ℝ) / (24 * 60)) = 0 by norm_num]
  norm_num

lemma lamAt_20000 : lamAt 20000 = 0.1483 := by
  unfold lamAt
  rw [show Int.floor ((20000:ℝ) / (24 * 60)) = 13 by norm_num]
  norm_num

lemma genInterAux_succ (fuel' : ℕ) (totalSim : ℝ) (s : ℕ → ℝ) (pos : ℕ) (t : ℝ)
    (acc : List ℝ) (h : t < totalSim) :
    genInterAux (fuel' + 1) totalSim s pos t acc =
      genInterAux fuel' totalSim s (pos + 1) (t + (1 / lamAt t) * s pos)
        (acc ++ [(1 / lamAt t) * s pos]) := by
  rw [genInterAux, if_pos h]

lemma genInterAux_stop (fuel' : ℕ) (totalSim : ℝ) (s : ℕ → ℝ) (pos : ℕ) (t : ℝ)
    (acc : List ℝ) (h : ¬ t < totalSim) :
    genInterAux (fuel' + 1) totalSim s pos t acc = (acc, pos) := by
  rw [genInterAux, if_neg h]

lemma genC2_one : generate_interarrivals 35 npC2 0 = ([100000], 1) := by
  unfold generate_interarrivals
  rw [show (1000000:ℕ) = 999999 + 1 by norm_num]
  rw [genInterAux_succ _ _ _ _ _ _ (by norm_num)]
  rw [lamAt_zero, show (1 / (0.1483:ℝ)) * npC2 0 = 100000 by norm_num [npC2]]
  rw [show (999999:ℕ) = 999998 + 1 by norm_num]
  rw [genInterAux_stop _ _ _ _ _ _ (by norm_num)]
  norm_num

lemma genC2_two : generate_interarrivals 35 npC2 4 = ([20000, 40000], 6) := by
  unfold generate_interarrivals
  rw [show (1000000:ℕ) = 999999 + 1 by norm_num]
  rw [genInterAux_succ _ _ _ _ _ _ (by norm_num)]
  rw [lamAt_zero, show (1 / (0.1483:ℝ)) * npC2 4 = 20000 by norm_num [npC2]]
  rw [show (0:ℝ) + 20000 = 20000 by norm_num]
  rw [show (999999:ℕ) = 999998 + 1 by norm_num]
  rw [genInterAux_succ _ _ _ _ _ _ (by norm_num)]
  rw [lamAt_20000, show (1 / (0.1483:ℝ)) * npC2 5 = 40000 by norm_num [npC2]]
  rw [show (999998:ℕ) = 999997 + 1 by norm_num]
  rw [genInterAux_stop _ _ _ _ _ _ (by norm_num)]
  norm_num

lemma trC2_one : drawExpList (1 / 15) npC2 1 1 = ([0], 2) := by
  norm_num [drawExpList, List.range_succ, List.range_zero, npC2]

lemma trC2_two : drawExpList (1 / 15) npC2 6 2 = ([50000, 0], 8) := by
  norm_num [drawExpList, List.range_succ, List.range_zero, npC2]

lemma coC2_one : synthetic_call_locations npC2 2 1 = ([(53.596919, -113.420168)], 4) := by
  norm_num [synthetic_call_locations, List.range_succ, List.range_zero, npC2]

lemma coC2_two : synthetic_call_locations npC2 8 2 =
    ([(53.596919, -113.420168), (53.596919, -113.420168)], 12) := by
  norm_num [synthetic_call_locations, List.range_succ, List.range_zero, npC2]

lemma hoC2_one : drawHospitalReq pyC2 0 1 = ([0], 1) := by
  norm_num [drawHospitalReq, List.range_succ, List.range_zero, pyC2]

lemma hoC2_two : drawHospitalReq pyC2 1 2 = ([0, 0], 3) := by
  norm_num [drawHospitalReq, List.range_succ, List.range_zero, pyC2]

lemma callsC2_one : buildCalls [100000] [0] [(53.596919, -113.420168)] [0] 0 =
    [Event.call 100000 0 53.596919 (-113.420168) 0] := by
  norm_num [buildCalls]

lemma callsC2_two : buildCalls [20000, 40000] [50000, 0]
    [(53.596919, -113.420168), (53.596919, -113.420168)] [0, 0] 0 =
    [Event.call 20000 50000 53.596919 (-113.420168) 0,
     Event.call 60000 0 53.596919 (-113.420168) 0] := by
  norm_num [buildCalls]

lemma distance_km_self (lat lon : ℝ) : distance_km lat lon lat lon = 0 := by
  simp only [distance_km, atan2, sub_self, zero_div, Real.sin_zero]
  norm_num [Real.sqrt_one, Real.arctan_zero]

lemma mkAmb1 : mkAmbulances 1 = [⟨0, 1, 53.596919, -113.420168⟩] := by
  norm_num [mkAmbulances, List.range_succ, List.range_zero, home_station,
    station_lat, station_lon]

lemma availC2 : availIdx [(⟨0, 1, 53.596919, -113.420168⟩ : Amb)] = [0] := by
  norm_num [availIdx, List.range_succ, List.range_zero, List.filter]

lemma poolC2 : freePool [(⟨0, 1, 53.596919, -113.420168⟩ : Amb)] = [0] := by
  simp [freePool, availC2]

lemma cdC2 : callDists [(⟨0, 1, 53.596919, -113.420168⟩ : Amb)] 53.596919 (-113.420168) =
    [0] := by
  simp [callDists, poolC2, distance_km_self]

lemma chC2 : chosenPos [(⟨0, 1, 53.596919, -113.420168⟩ : Amb)] 53.596919 (-113.420168) =
    0 := by
  simp [chosenPos, poolC2, cdC2, argminIdx]

lemma t1C2 : get_travel_time_minutes (listMin
    (callDists [(⟨0, 1, 53.596919, -113.420168⟩ : Amb)] 53.596919 (-113.420168))) = 0 := by
  rw [cdC2, show listMin [(0:ℝ)] = 0 from rfl]
  exact get_travel_time_minutes_of_le 0 (by norm_num)

lemma stepC2_a : step cfgC2 ⟨[⟨0, 1, 53.596919, -113.420168⟩], 1, [], 0,
    [Event.call 100000 0 53.596919 (-113.420168) 0], npC2, 4⟩ =
    ⟨[⟨0, 0, 53.596919, -113.420168⟩], 0, [0], 0, [Event.free 100000 0], npC2, 4⟩ := by
  rw [step_call_dispatch_nohos cfgC2 _ 100000 0 53.596919 (-113.420168) 0 [] rfl
    (by decide) (by norm_num)]
  simp only [chC2, t1C2]
  norm_num [warmup, insortR, defaultAmb]

lemma stepC2_b : step cfgC2 ⟨[⟨0, 0, 53.596919, -113.420168⟩], 0, [0], 0,
    [Event.free 100000 0], npC2, 4⟩ =
    ⟨[⟨0, 1, 53.596919, -113.420168⟩], 1, [0], 0, [], npC2, 4⟩ := by
  rw [step_free_norepo cfgC2 _ 100000 0 [] rfl (by decide)]
  norm_num [freedAmb]

lemma simC2_one : simulateCalls 0 [[]] 1 0
    [Event.call 100000 0 53.596919 (-113.420168) 0] npC2 4 = ((0, 1, 0), 4) := by
  simp only [simulateCalls, fixed_location_generator]
  have hs0 : initState 1 [Event.call 100000 0 53.596919 (-113.420168) 0] npC2 4 =
      ⟨[⟨0, 1, 53.596919, -113.420168⟩], 1, [], 0,
        [Event.call 100000 0 53.596919 (-113.420168) 0], npC2, 4⟩ := by
    norm_num [initState, mkAmb1, initEvents, insortR]
  rw [hs0]
  rw [show ({ th := 0, table := [[]], stations := (mkAmbulances 1, mkStations 0,
      mkHospitals 5).2.1, hospitals := (mkAmbulances 1, mkStations 0,
      mkHospitals 5).2.2 } : SimCfg) = cfgC2 from rfl]
  rw [runLoop_cons _ _ (by simp), stepC2_a, runLoop_cons _ _ (by simp), stepC2_b,
      runLoop_nil _ _ rfl]
  norm_num [repMetrics, listMedian, listMean, List.mergeSort]

lemma stepC2_c : step cfgC2 ⟨[⟨0, 1, 53.596919, -113.420168⟩], 1, [], 0,
    [Event.call 20000 50000 53.596919 (-113.420168) 0,
     Event.call 60000 0 53.596919 (-113.420168) 0], npC2, 12⟩ =
    ⟨[⟨0, 0, 53.596919, -113.420168⟩], 0, [0], 0,
     [Event.call 60000 0 53.596919 (-113.420168) 0, Event.free 70000 0], npC2, 12⟩ := by
  rw [step_call_dispatch_nohos cfgC2 _ 20000 50000 53.596919 (-113.420168) 0
    [Event.call 60000 0 53.596919 (-113.420168) 0] rfl (by decide) (by norm_num)]
  simp only [chC2, t1C2]
  norm_num [warmup, insortR, Event.time, defaultAmb]

lemma stepC2_d : step cfgC2 ⟨[⟨0, 0, 53.596919, -113.420168⟩], 0, [0], 0,
    [Event.call 60000 0 53.596919 (-113.420168) 0, Event.free 70000 0], npC2, 12⟩ =
    ⟨[⟨0, 0, 53.596919, -113.420168⟩], 0, [0], 1, [Event.free 70000 0], npC2, 12⟩ := by
  rw [step_call_lost cfgC2 _ 60000 0 53.596919 (-113.420168) 0
    [Event.free 70000 0] rfl rfl]
  norm_num [warmup]

lemma stepC2_e : step cfgC2 ⟨[⟨0, 0, 53.596919, -113.420168⟩], 0, [0], 1,
    [Event.free 70000 0], npC2, 12⟩ =
    ⟨[⟨0, 1, 53.596919, -113.420168⟩], 1, [0], 1, [], npC2, 12⟩ := by
  rw [step_free_norepo cfgC2 _ 70000 0 [] rfl (by decide)]
  norm_num [freedAmb]

lemma simC2_two : simulateCalls 0 [[]] 1 0
    [Event.call 20000 50000 53.596919 (-113.420168) 0,
     Event.call 60000 0 53.596919 (-113.420168) 0] npC2 12 = ((0, 1, 1), 12) := by
  simp only [simulateCalls, fixed_location_generator]
  have hs0 : initState 1 [Event.call 20000 50000 53.596919 (-113.420168) 0,
      Event.call 60000 0 53.596919 (-113.420168) 0] npC2 12 =
      ⟨[⟨0, 1, 53.596919, -113.420168⟩], 1, [], 0,
        [Event.call 20000 50000 53.596919 (-113.420168) 0,
         Event.call 60000 0 53.596919 (-113.420168) 0], npC2, 12⟩ := by
    norm_num [initState, mkAmb1, initEvents, insortR, Event.time]
  rw [hs0]
  rw [show ({ th := 0, table := [[]], stations := (mkAmbulances 1, mkStations 0,
      mkHospitals 5).2.1, hospitals := (mkAmbulances 1, mkStations 0,
      mkHospitals 5).2.2 } : SimCfg) = cfgC2 from rfl]
  rw [runLoop_cons _ _ (by simp), stepC2_c, runLoop_cons _ _ (by simp), stepC2_d,
      runLoop_cons _ _ (by simp), stepC2_e, runLoop_nil _ _ rfl]
  norm_num [repMetrics, listMedian, listMean, List.mergeSort]

lemma lenC2one : ([100000] : List ℝ).length = 1 := rfl

lemma lenC2two : ([20000, 40000] : List ℝ).length = 2 := rfl

lemma runRepC2_one : runReplication 0 [[]] 1 0 rngC2 = ((0, 1, 0), ⟨npC2, 4, pyC2, 1⟩) := by
  simp only [runReplication, rngC2, genC2_one, lenC2one, trC2_one, coC2_one,
    hoC2_one, callsC2_one, simC2_one]

lemma runRepC2_two : runReplication 0 [[]] 1 0 ⟨npC2, 4, pyC2, 1⟩ =
    ((0, 1, 1), ⟨npC2, 12, pyC2, 3⟩) := by
  simp only [runReplication, genC2_two, lenC2two, trC2_two, coC2_two,
    hoC2_two, callsC2_two, simC2_two]

lemma fitC2_one : fitness_function [] 0 1 0 1 rngC2 = (⟨0, 1, 0⟩, ⟨npC2, 4, pyC2, 1⟩) := by
  unfold fitness_function
  rw [show build_table [] = [[]] from by decide]
  simp only [fitnessAux]
  rw [runRepC2_one]
  norm_num [listMean]

lemma fitC2_two : fitness_function [] 0 1 0 1 ⟨npC2, 4, pyC2, 1⟩ =
    (⟨0, 1, 1⟩, ⟨npC2, 12, pyC2, 3⟩) := by
  unfold fitness_function
  rw [show build_table [] = [[]] from by decide]
  simp only [fitnessAux]
  rw [runRepC2_two]
  norm_num [listMean]

/-- Counterexample to C2 as stated: with the process-level seed fixed (the
streams of `rngC2` model the generators right after the module-level
seeding), two successive calls of `fitness_function` with identical
arguments return different metrics (0 vs 1 mean lost calls), because the
first call advances the shared global RNG state that the second call then
consumes — global ambient RNG state does leak between callers and between
replications. -/
theorem rng_global_state_leak_counterexample :
    (fitness_function [] 0 1 0 1 rngC2).1.lost_calls = 0 ∧
    (fitness_function [] 0 1 0 1 ((fitness_function [] 0 1 0 1 rngC2).2)).1.lost_calls = 1 ∧
    (fitness_function [] 0 1 0 1 rngC2).1 ≠
      (fitness_function [] 0 1 0 1 ((fitness_function [] 0 1 0 1 rngC2).2)).1 := by
  rw [fitC2_one]
  norm_num [fitC2_two]

/-- Witness for the amended C2: two distinct global streams that agree
from the current positions onward give bit-identical metrics. -/
theorem rng_agreement_determinism_witness :
    RngAgrees ⟨npC2, 1, pyC2, 0⟩ ⟨fun k => if k = 0 then 999 else npC2 k, 1, pyC2, 0⟩ ∧
    (fitness_function [] 0 1 0 1 ⟨npC2, 1, pyC2, 0⟩).1 =
      (fitness_function [] 0 1 0 1 ⟨fun k => if k = 0 then 999 else npC2 k, 1, pyC2, 0⟩).1 := by
  have hag : RngAgrees ⟨npC2, 1, pyC2, 0⟩
      ⟨fun k => if k = 0 then 999 else npC2 k, 1, pyC2, 0⟩ :=
    ⟨rfl, rfl, fun k hk => by
      have hk' : 1 ≤ k := hk
      simp only
      rw [if_neg (by omega : ¬ k = 0)], fun _ _ => rfl⟩
  exact ⟨hag, (rng_agreement_determinism [] 0 1 0 1 _ _ hag).1⟩

/-- Witness for C8 at concrete inputs. -/
theorem travel_time_zero_and_monotone_witness :
    ((0.05 : ℝ) ≤ 0.1 ∧ get_travel_time_minutes 0.05 = 0) ∧
    ((0.1:ℝ) < 1 ∧ (1:ℝ) ≤ 5 ∧
      get_travel_time_minutes 1 ≤ get_travel_time_minutes 5) :=
  ⟨⟨by norm_num, travel_time_zero_and_monotone.1 0.05 (by norm_num)⟩,
   ⟨by norm_num, by norm_num,
    travel_time_zero_and_monotone.2 1 5 (by norm_num) (by norm_num)⟩⟩

end
